import Mathlib

/-!
# MiniThread: waitable tasks, notification channel, array stack and buffer allocator

A shallow embedding of

* `src/src/mn_convar_task.cpp`  (`basic_convar_task`: `on_create`, `signal`, `signal_all`, `wait`),
* `src/src/mn_task_utils.cpp`   (`task_utils`: `notify`, `notify_unlock`, `notify_lock`, `notify_wait`),
* `src/include/memory/mn_stack.hpp` (`basic_stack`),
* `src/include/mn_allocator_buffer.hpp` (`basic_allocator_buffer`: `calloc`).

Calls of one task are modelled as state passing over a `World`; every primitive that the
C++ code invokes on a lock, a semaphore, the wait list or a hook appends one `Event` to the
world's trace, so that orderings and call counts can be stated.  A function returns `none`
when the C++ call would not return (it would block on a lock that is held, or the recursion
bound is used up).
-/

namespace MiniThread

/-! ## Waitable task: data model -/

/-- Modelled from the spec: the class `basic_binary_semaphore`, whose source lies outside the files
embedded here.  A binary semaphore either has its single token available (`true`) or
is in the acquired state (`false`). -/
structure basic_binary_semaphore where
  available : Bool
deriving DecidableEq, Repr

/-- Modelled from the spec: the lock type behind `m_runningMutex` and `mutex_t`, a classic
mutual-exclusion lock that is either held or free. -/
structure LockType_t where
  held : Bool
deriving DecidableEq, Repr

/-- Result of a timed acquire of the private semaphore, the value `wait` returns: the
spec distinguishes "woken by signal" from "timed out". -/
inductive WaitResult where
  | woken
  | timedOut
deriving DecidableEq, Repr

/-- The members of `basic_convar_task` that `signal`, `signal_all` and `wait` read or write:
the private semaphore `m_waitSem`, the running lock `m_runningMutex` and the forward link
`m_pChild` (a task is named by a number, `none` is the null pointer). -/
structure basic_convar_task where
  m_waitSem : basic_binary_semaphore
  m_runningMutex : LockType_t
  m_pChild : Option Nat
deriving DecidableEq, Repr

/-- One primitive effect performed by the waitable-task code. -/
inductive Event where
  | running_lock (t : Nat)
  | running_unlock (t : Nat)
  | sem_create (t : Nat)
  | sem_lock (t : Nat)
  | sem_lock_timed (t : Nat) (timeOut : Nat)
  | sem_unlock (t : Nat)
  | on_signal (t : Nat)
  | add_list (t : Nat)
  | cvl_unlock
  | cvl_lock
deriving DecidableEq, Repr

/-- The objects the waitable-task code touches: the tasks (by number), the wait list of the
condition variable `cv`, the external lock `cvl`, and the trace of effects so far. -/
structure World where
  tasks : Nat → basic_convar_task
  cv : List Nat
  cvl : LockType_t
  trace : List Event

/-- Replace the object of task `t`. -/
def World.setTask (w : World) (t : Nat) (x : basic_convar_task) : World :=
  { w with tasks := fun i => if i = t then x else w.tasks i }

/-- Append one effect to the trace. -/
def World.log (w : World) (e : Event) : World :=
  { w with trace := w.trace ++ [e] }

/-! ## Primitives on locks and semaphores -/

/-- Modelled from the spec: `basic_binary_semaphore::create()`; a freshly created semaphore
can be acquired at once (`on_create` acquires it immediately after creating it). -/
def basic_binary_semaphore.create : basic_binary_semaphore := ⟨true⟩

/-- Modelled from the spec: `basic_binary_semaphore::lock()` without timeout; it takes the
token, and does not return while the token is not available. -/
def basic_binary_semaphore.lock (s : basic_binary_semaphore) : Option basic_binary_semaphore :=
  if s.available then some ⟨false⟩ else none

/-- Modelled from the spec: `basic_binary_semaphore::lock(timeOut)`; it takes the token when
it is available, and otherwise, with nobody releasing it meanwhile, reports the timeout. -/
def basic_binary_semaphore.lock_timed (s : basic_binary_semaphore) (_timeOut : Nat) :
    WaitResult × basic_binary_semaphore :=
  if s.available then (WaitResult.woken, ⟨false⟩) else (WaitResult.timedOut, s)

/-- Modelled from the spec: `basic_binary_semaphore::unlock()`; it releases the token (a
binary semaphore holds at most one). -/
def basic_binary_semaphore.unlock (_s : basic_binary_semaphore) : basic_binary_semaphore :=
  ⟨true⟩

/-- Modelled from the spec: `lock()` of a mutual-exclusion lock; it does not return while
the lock is held. -/
def LockType_t.lock (m : LockType_t) : Option LockType_t :=
  if m.held then none else some ⟨true⟩

/-- Modelled from the spec: `unlock()` of a mutual-exclusion lock. -/
def LockType_t.unlock (_m : LockType_t) : LockType_t := ⟨false⟩

/-- Constructor of `autolock_t autolock(*m_runningMutex)` in a member of task `t`. -/
def autolock_acquire (w : World) (t : Nat) : Option World :=
  match (w.tasks t).m_runningMutex.lock with
  | none => none
  | some m => some ((w.setTask t { w.tasks t with m_runningMutex := m }).log (Event.running_lock t))

/-- Destructor of the `autolock_t` of task `t`, run when the member function is left. -/
def autolock_release (w : World) (t : Nat) : World :=
  (w.setTask t { w.tasks t with m_runningMutex := (w.tasks t).m_runningMutex.unlock }).log
    (Event.running_unlock t)

/-- The call `m_waitSem->unlock()` in task `t`. -/
def waitSem_unlock (w : World) (t : Nat) : World :=
  (w.setTask t { w.tasks t with m_waitSem := (w.tasks t).m_waitSem.unlock }).log
    (Event.sem_unlock t)

/-- The call `m_waitSem->lock(timeOut)` in task `t`. -/
def waitSem_lock_timed (w : World) (t : Nat) (timeOut : Nat) : WaitResult × World :=
  let r := (w.tasks t).m_waitSem.lock_timed timeOut
  (r.1, (w.setTask t { w.tasks t with m_waitSem := r.2 }).log (Event.sem_lock_timed t timeOut))

/-- The virtual hook `on_signal()` of task `t`; the hook of `basic_convar_task` itself has no
effect on the objects modelled here, the call is recorded. -/
def on_signal (w : World) (t : Nat) : World :=
  w.log (Event.on_signal t)

/-- Modelled from the spec: `convar_t::add_list(this)`, which registers the task in the
insertion-ordered wait set of the condition variable. -/
def add_list (w : World) (t : Nat) : World :=
  ({ w with cv := w.cv ++ [t] } : World).log (Event.add_list t)

/-- The call `cvl.unlock()` on the external lock. -/
def cvl_unlock (w : World) : World :=
  ({ w with cvl := w.cvl.unlock } : World).log Event.cvl_unlock

/-- The call `cvl.lock()` on the external lock. -/
def cvl_lock (w : World) : Option World :=
  match w.cvl.lock with
  | none => none
  | some m => some (({ w with cvl := m } : World).log Event.cvl_lock)

/-! ## `basic_convar_task` (mn_convar_task.cpp) -/

/-- `basic_convar_task::on_create`: `m_waitSem = new basic_binary_semaphore();
m_waitSem->create(); m_waitSem->lock();`. -/
def on_create (w : World) (t : Nat) : Option World :=
  let w1 := (w.setTask t { w.tasks t with m_waitSem := basic_binary_semaphore.create }).log
    (Event.sem_create t)
  match (w1.tasks t).m_waitSem.lock with
  | none => none
  | some s => some ((w1.setTask t { w1.tasks t with m_waitSem := s }).log (Event.sem_lock t))

/-- `basic_convar_task::signal`: take the running lock for the scope of the call, release
the private semaphore, call the hook. -/
def signal (w : World) (t : Nat) : Option World :=
  match autolock_acquire w t with
  | none => none
  | some w1 =>
    let w2 := waitSem_unlock w1 t
    let w3 := on_signal w2 t
    some (autolock_release w3 t)

/-- `basic_convar_task::signal_all`: as `signal`, then, still inside the scope of the running
lock, `signal_all` of the child when there is one.  The first argument bounds the depth of
the recursion. -/
def signal_all : Nat → World → Nat → Option World
  | 0, _, _ => none
  | fuel + 1, w, t =>
    match autolock_acquire w t with
    | none => none
    | some w1 =>
      let w2 := waitSem_unlock w1 t
      let w3 := on_signal w2 t
      match (w3.tasks t).m_pChild with
      | some c =>
        match signal_all fuel w3 c with
        | none => none
        | some w4 => some (autolock_release w4 t)
      | none => some (autolock_release w3 t)

/-- `basic_convar_task::wait(cv, cvl, timeOut)`: take the running lock for the scope of the
call, `cv.add_list(this)`, `cvl.unlock()`, `ret = m_waitSem->lock(timeOut)`, `cvl.lock()`,
`return ret`. -/
def wait (w : World) (t : Nat) (timeOut : Nat) : Option (WaitResult × World) :=
  match autolock_acquire w t with
  | none => none
  | some w1 =>
    let w2 := add_list w1 t
    let w3 := cvl_unlock w2
    let r := waitSem_lock_timed w3 t timeOut
    match cvl_lock r.2 with
    | none => none
    | some w5 => some (r.1, autolock_release w5 t)

/-- A world of three unlinked tasks on which nothing has been created or locked yet; the
caller holds the external lock. -/
def world0 : World :=
  { tasks := fun _ => ⟨⟨false⟩, ⟨false⟩, none⟩, cv := [], cvl := ⟨true⟩, trace := [] }

/-- World `world0` after `on_create` of task 0. -/
def world1 : World := (on_create world0 0).getD world0

/-- The effects of one complete call `wait(cv, cvl, timeOut)` of task `t`, in program order. -/
def wait_trace (t timeOut : Nat) : List Event :=
  [Event.running_lock t, Event.add_list t, Event.cvl_unlock, Event.sem_lock_timed t timeOut,
    Event.cvl_lock, Event.running_unlock t]

/-- The effects of `signal_all` on the chain of tasks `ts`, in program order: each task takes
its running lock, releases its semaphore and calls its hook, then the rest of the chain is
served, and the running locks are given back innermost first. -/
def signal_all_trace : List Nat → List Event
  | [] => []
  | t :: rest =>
    [Event.running_lock t, Event.sem_unlock t, Event.on_signal t] ++ signal_all_trace rest ++
      [Event.running_unlock t]

/-- The tasks whose private semaphore a trace releases, in order. -/
def semReleases : List Event → List Nat
  | [] => []
  | Event.sem_unlock t :: es => t :: semReleases es
  | _ :: es => semReleases es

/-- The tasks whose `on_signal()` hook a trace invokes, in order. -/
def hookCalls : List Event → List Nat
  | [] => []
  | Event.on_signal t :: es => t :: hookCalls es
  | _ :: es => hookCalls es

/-- The list `ts` is the chain that starts at its first task: each task's `m_pChild` is the
next one and the last task has no child. -/
def IsChain (w : World) : List Nat → Prop
  | [] => False
  | [t] => (w.tasks t).m_pChild = none
  | t :: c :: rest => (w.tasks t).m_pChild = some c ∧ IsChain w (c :: rest)

/-- A world with the chain 0 -> 1 -> 2 -> 3 -> 4 -> 5; all other tasks have no child. -/
def chainWorld : World :=
  { tasks := fun i => ⟨⟨false⟩, ⟨false⟩, if i < 5 then some (i + 1) else none⟩,
    cv := [], cvl := ⟨true⟩, trace := [] }

/-! ## Two threads on one task: `wait` against `signal`

The calls `T.wait(cv, cvl, timeOut)` of one thread and `T.signal()` of another thread,
interleaved statement by statement.  A thread whose next statement cannot proceed (a lock
that is held, a semaphore without token whose timeout has not expired) stays where it is. -/

/-- The next statement of the thread inside `basic_convar_task::wait`; from `cvl_lock` on
the value `ret` of `m_waitSem->lock(timeOut)` is known. -/
inductive WaitPc where
  | acquire
  | add_list
  | cvl_unlock
  | sem_lock
  | cvl_lock (ret : WaitResult)
  | release (ret : WaitResult)
  | done (ret : WaitResult)
deriving DecidableEq, Repr

/-- The next statement of the thread inside `basic_convar_task::signal`. -/
inductive SignalPc where
  | acquire
  | sem_unlock
  | on_signal
  | release
  | done
deriving DecidableEq, Repr

/-- What happens next: the waiting thread runs one statement, the signalling thread runs one
statement, or one tick of the scheduler's clock passes. -/
inductive Sched where
  | waiter
  | signaller
  | tick
deriving DecidableEq, Repr

/-- The task `T` (number 0), the condition variable's wait set and external lock, the two
threads, the ticks left until the timeout of the waiter's blocked acquire expires, and the
number of `on_signal()` calls so far. -/
structure Interleaving where
  task : basic_convar_task
  cv : List Nat
  cvl : LockType_t
  waiter : WaitPc
  signaller : SignalPc
  ticksLeft : Nat
  hooks : Nat
deriving DecidableEq, Repr

/-- One statement of the thread in `wait`: the scoped acquire of `m_runningMutex`,
`cv.add_list(this)`, `cvl.unlock()`, `m_waitSem->lock(timeOut)` (which takes the token when
there is one and gives up when no tick is left), `cvl.lock()`, the scoped release. -/
def stepWaiter (s : Interleaving) : Interleaving :=
  match s.waiter with
  | WaitPc.acquire =>
    match s.task.m_runningMutex.lock with
    | none => s
    | some m => { s with task := { s.task with m_runningMutex := m }, waiter := WaitPc.add_list }
  | WaitPc.add_list => { s with cv := s.cv ++ [0], waiter := WaitPc.cvl_unlock }
  | WaitPc.cvl_unlock => { s with cvl := s.cvl.unlock, waiter := WaitPc.sem_lock }
  | WaitPc.sem_lock =>
    match s.task.m_waitSem.lock with
    | some sem =>
      { s with task := { s.task with m_waitSem := sem }, waiter := WaitPc.cvl_lock WaitResult.woken }
    | none =>
      if s.ticksLeft = 0 then { s with waiter := WaitPc.cvl_lock WaitResult.timedOut } else s
  | WaitPc.cvl_lock ret =>
    match s.cvl.lock with
    | none => s
    | some m => { s with cvl := m, waiter := WaitPc.release ret }
  | WaitPc.release ret =>
    { s with task := { s.task with m_runningMutex := s.task.m_runningMutex.unlock },
             waiter := WaitPc.done ret }
  | WaitPc.done _ => s

/-- One statement of the thread in `signal`: the scoped acquire of `m_runningMutex`,
`m_waitSem->unlock()`, `on_signal()`, the scoped release. -/
def stepSignaller (s : Interleaving) : Interleaving :=
  match s.signaller with
  | SignalPc.acquire =>
    match s.task.m_runningMutex.lock with
    | none => s
    | some m => { s with task := { s.task with m_runningMutex := m }, signaller := SignalPc.sem_unlock }
  | SignalPc.sem_unlock =>
    { s with task := { s.task with m_waitSem := s.task.m_waitSem.unlock },
             signaller := SignalPc.on_signal }
  | SignalPc.on_signal => { s with hooks := s.hooks + 1, signaller := SignalPc.release }
  | SignalPc.release =>
    { s with task := { s.task with m_runningMutex := s.task.m_runningMutex.unlock },
             signaller := SignalPc.done }
  | SignalPc.done => s

/-- One step of the interleaving; a tick counts down the timeout of a waiter that is blocked
in `m_waitSem->lock(timeOut)`. -/
def step (s : Interleaving) : Sched → Interleaving
  | Sched.waiter => stepWaiter s
  | Sched.signaller => stepSignaller s
  | Sched.tick => if s.waiter = WaitPc.sem_lock then { s with ticksLeft := s.ticksLeft - 1 } else s

/-- The state after a whole schedule. -/
def run (sched : List Sched) (s : Interleaving) : Interleaving :=
  sched.foldl step s

/-- The state in which thread 1, inside `T.wait(cv, cvl, timeOut)` on a created task with no
banked signal, has just registered `T` in the wait set (it holds the running lock and the
external lock), and thread 2 is about to execute `T.signal()`. -/
def registered (timeOut : Nat) : Interleaving :=
  { task := ⟨⟨false⟩, ⟨true⟩, none⟩, cv := [0], cvl := ⟨true⟩, waiter := WaitPc.cvl_unlock,
    signaller := SignalPc.acquire, ticksLeft := timeOut, hooks := 0 }

/-- The value returned by `wait`, once it has returned. -/
def waitReturned (s : Interleaving) : Option WaitResult :=
  match s.waiter with
  | WaitPc.done ret => some ret
  | _ => none

/-- What holds of every state reachable from `registered`: until the waiter has left `wait`
the running lock is held by it, the signaller has not got past its acquire and the semaphore
is still without token, so the only value the blocked acquire can produce is the timeout. -/
def waiterShutsOut (s : Interleaving) : Prop :=
  match s.waiter with
  | WaitPc.acquire => False
  | WaitPc.add_list => False
  | WaitPc.cvl_unlock | WaitPc.sem_lock =>
    s.task.m_runningMutex.held = true ∧ s.signaller = SignalPc.acquire ∧
      s.task.m_waitSem.available = false
  | WaitPc.cvl_lock ret | WaitPc.release ret =>
    ret = WaitResult.timedOut ∧ s.task.m_runningMutex.held = true ∧
      s.signaller = SignalPc.acquire ∧ s.task.m_waitSem.available = false
  | WaitPc.done ret => ret = WaitResult.timedOut

/-! ## Notification channel (mn_task_utils.cpp)

The scheduler kernel is external.  `task_utils` is modelled over an arbitrary `Adapter`,
whose functions give the result of each kernel primitive on a kernel state `K`; every call
of a primitive is recorded, with its arguments, in the list `calls`. -/

/-- The kernel's truth values of type `BaseType_t`. -/
def pdTRUE : Int := 1

/-- The kernel's `pdFALSE`. -/
def pdFALSE : Int := 0

/-- Modelled from the spec: the combining actions of a notification (`task_utils::action`,
declared in `mn_task_utils.hpp`, outside the files embedded here); the cast `(eNotifyAction)action` hands
the action on as it is. -/
inductive action where
  | NoAction
  | SetBits
  | Increment
  | SetOverwrite
  | SetNoOverwrite
deriving DecidableEq, Repr

/-- The part of `basic_task` that the notification channel reads: the native handle
returned by `get_handle()`. -/
structure basic_task where
  handle : Nat
deriving DecidableEq, Repr

/-- `basic_task::get_handle()`. -/
def basic_task.get_handle (t : basic_task) : Nat := t.handle

/-- One call of a kernel primitive, with its arguments. -/
inductive Call where
  | xPortInIsrContext
  | xTaskNotify (handle value : Nat) (act : action)
  | xTaskNotifyFromISR (handle value : Nat) (act : action)
  | xTaskNotifyGive (handle : Nat)
  | vTaskNotifyGiveFromISR (handle : Nat)
  | ulTaskNotifyTake (clearCountOnExit : Int) (ticksToWait : Nat)
  | xTaskNotifyWait (bitsToClearOnEntry bitsToClearOnExit ticksToWait : Nat)
  | _frxt_setup_switch
  | taskYIELD
deriving DecidableEq, Repr

/-- The primitives that may block the caller: the take and the wait. -/
def Call.blocking : Call → Bool
  | Call.ulTaskNotifyTake _ _ => true
  | Call.xTaskNotifyWait _ _ _ => true
  | _ => false

/-- The primitives that may only be used outside interrupt context. -/
def Call.normalContext : Call → Bool
  | Call.xTaskNotify _ _ _ => true
  | Call.xTaskNotifyGive _ => true
  | Call.ulTaskNotifyTake _ _ => true
  | Call.xTaskNotifyWait _ _ _ => true
  | Call.taskYIELD => true
  | _ => false

/-- The kernel primitives used by `task_utils`, as functions of the kernel state.  The
`FromISR` primitives also give the value they leave in `xHigherPriorityTaskWoken`, which
the caller has set to `pdFALSE` before; `xTaskNotifyWait` gets and gives back the cell
behind `pulNotificationValue`. -/
structure Adapter (K : Type) where
  xPortInIsrContext : K → Bool
  xTaskNotify : K → Nat → Nat → action → Int × K
  xTaskNotifyFromISR : K → Nat → Nat → action → Int × Int × K
  xTaskNotifyGive : K → Nat → Int × K
  vTaskNotifyGiveFromISR : K → Nat → Int × K
  ulTaskNotifyTake : K → Int → Nat → Nat × K
  xTaskNotifyWait : K → Nat → Nat → Nat → Nat → Int × Nat × K
  _frxt_setup_switch : K → K

/-- The kernel state together with the record of the primitive calls made so far. -/
structure Sys (K : Type) where
  kernel : K
  calls : List Call

/-- `basic_task::yield()` (mn_task.hpp): `taskYIELD()`, the immediate switch request; the
kernel state after the switch is left open. -/
def yield {K : Type} (s : Sys K) : Sys K :=
  { s with calls := s.calls ++ [Call.taskYIELD] }

namespace task_utils

/-- `task_utils::notify(pTaskToNotify, ulValue, action)`. -/
def notify {K : Type} (A : Adapter K) (s : Sys K) (pTaskToNotify : basic_task) (ulValue : Nat)
    (act : action) : Bool × Sys K :=
  if A.xPortInIsrContext s.kernel then
    let r := A.xTaskNotifyFromISR s.kernel pTaskToNotify.get_handle ulValue act
    let s1 : Sys K :=
      { kernel := r.2.2,
        calls := s.calls ++ [Call.xPortInIsrContext,
          Call.xTaskNotifyFromISR pTaskToNotify.get_handle ulValue act] }
    let s2 : Sys K :=
      if r.2.1 ≠ 0 then
        { kernel := A._frxt_setup_switch s1.kernel, calls := s1.calls ++ [Call._frxt_setup_switch] }
      else s1
    (decide (r.1 = pdTRUE), s2)
  else
    let r := A.xTaskNotify s.kernel pTaskToNotify.get_handle ulValue act
    (decide (r.1 = pdTRUE),
      { kernel := r.2,
        calls := s.calls ++ [Call.xPortInIsrContext,
          Call.xTaskNotify pTaskToNotify.get_handle ulValue act] })

/-- `task_utils::notify_unlock(pTaskToNotify)`; in the interrupt branch `success` keeps its
initial value `pdTRUE`. -/
def notify_unlock {K : Type} (A : Adapter K) (s : Sys K) (pTaskToNotify : basic_task) :
    Bool × Sys K :=
  if A.xPortInIsrContext s.kernel then
    let r := A.vTaskNotifyGiveFromISR s.kernel pTaskToNotify.get_handle
    let s1 : Sys K :=
      { kernel := r.2,
        calls := s.calls ++ [Call.xPortInIsrContext,
          Call.vTaskNotifyGiveFromISR pTaskToNotify.get_handle] }
    let s2 : Sys K :=
      if r.1 ≠ 0 then
        { kernel := A._frxt_setup_switch s1.kernel, calls := s1.calls ++ [Call._frxt_setup_switch] }
      else s1
    (decide (pdTRUE = pdTRUE), s2)
  else
    let r := A.xTaskNotifyGive s.kernel pTaskToNotify.get_handle
    (decide (r.1 = pdTRUE),
      { kernel := r.2,
        calls := s.calls ++ [Call.xPortInIsrContext,
          Call.xTaskNotifyGive pTaskToNotify.get_handle] })

/-- `task_utils::notify_lock(bClearCountOnExit, xTicksToWait)`:
`return ulTaskNotifyTake(bClearCountOnExit ? pdTRUE : pdFALSE, xTicksToWait)`. -/
def notify_lock {K : Type} (A : Adapter K) (s : Sys K) (bClearCountOnExit : Bool)
    (xTicksToWait : Nat) : Nat × Sys K :=
  let r := A.ulTaskNotifyTake s.kernel (if bClearCountOnExit then pdTRUE else pdFALSE) xTicksToWait
  (r.1,
    { kernel := r.2,
      calls := s.calls ++
        [Call.ulTaskNotifyTake (if bClearCountOnExit then pdTRUE else pdFALSE) xTicksToWait] })

/-- `task_utils::notify_wait(ulBitsToClearOnEntry, ulBitsToClearOnExit, pulNotificationValue,
xTicksToWait)`; the second component of the result is the cell behind
`pulNotificationValue` after the call. -/
def notify_wait {K : Type} (A : Adapter K) (s : Sys K) (ulBitsToClearOnEntry : Nat)
    (ulBitsToClearOnExit : Nat) (pulNotificationValue : Nat) (xTicksToWait : Nat) :
    Bool × Nat × Sys K :=
  let r := A.xTaskNotifyWait s.kernel ulBitsToClearOnEntry ulBitsToClearOnExit
    pulNotificationValue xTicksToWait
  (decide (r.1 = pdTRUE), r.2.1,
    { kernel := r.2.2,
      calls := s.calls ++
        [Call.xTaskNotifyWait ulBitsToClearOnEntry ulBitsToClearOnExit xTicksToWait] })

end task_utils

/-! ## A reference kernel for the notification primitives -/

/-- Modelled from the spec: the kernel state behind the notification primitives, which
belong to the external scheduler kernel.  Per task handle a 32-bit notification value and a
flag telling whether a notification is pending and unconsumed; whether the caller runs in
interrupt context; which task is the caller; for which handles a delivery wakes a task of
higher priority than the interrupted one; and the deferred-switch flag that the platform
checks at interrupt exit. -/
structure Kernel where
  inIsr : Bool
  current : Nat
  value : Nat → Nat
  pending : Nat → Bool
  wakesHigher : Nat → Bool
  deferredSwitch : Bool

/-- Modelled from the spec: store value `v` for handle `h` and mark a notification pending. -/
def Kernel.store (k : Kernel) (h v : Nat) : Kernel :=
  { k with value := fun i => if i = h then v % 2 ^ 32 else k.value i,
           pending := fun i => if i = h then true else k.pending i }

/-- Modelled from the spec: delivery of a notification, the combining action applied to the
pending value of the target: `SetBits` is bitwise OR, `Increment` adds one, `SetOverwrite`
replaces the value, `SetNoOverwrite` fails and leaves the value when one is already pending,
`NoAction` leaves the value.  All other actions always succeed. -/
def Kernel.deliver (k : Kernel) (h v : Nat) : action → Int × Kernel
  | action.NoAction => (pdTRUE, k.store h (k.value h))
  | action.SetBits => (pdTRUE, k.store h (k.value h ||| v))
  | action.Increment => (pdTRUE, k.store h (k.value h + 1))
  | action.SetOverwrite => (pdTRUE, k.store h v)
  | action.SetNoOverwrite => if k.pending h then (pdFALSE, k) else (pdTRUE, k.store h v)

/-- Modelled from the spec: the take on the caller's own token; it gives the count taken and
either clears the count or takes one off; with nothing pending it gives 0 when the timeout
has passed. -/
def Kernel.take (k : Kernel) (clearCountOnExit : Int) (_ticksToWait : Nat) : Nat × Kernel :=
  if k.value k.current = 0 then (0, k)
  else
    (k.value k.current,
      { k with value := fun i =>
                 if i = k.current then (if clearCountOnExit ≠ 0 then 0 else k.value i - 1)
                 else k.value i,
               pending := fun i => if i = k.current then false else k.pending i })

/-- Modelled from the spec: the wait of the caller for a pending value; the entry mask is
cleared before waiting, on success the observed value is written to the out cell and the
exit mask is cleared, on timeout the out cell is not touched. -/
def Kernel.waitValue (k : Kernel) (clearOnEntry clearOnExit out _ticksToWait : Nat) :
    Int × Nat × Kernel :=
  if k.pending k.current then
    (pdTRUE, k.value k.current,
      { k with value := fun i =>
                 if i = k.current then k.value i &&& ((2 ^ 32 - 1) ^^^ (clearOnExit % 2 ^ 32))
                 else k.value i,
               pending := fun i => if i = k.current then false else k.pending i })
  else
    (pdFALSE, out,
      { k with value := fun i =>
                 if i = k.current then k.value i &&& ((2 ^ 32 - 1) ^^^ (clearOnEntry % 2 ^ 32))
                 else k.value i })

/-- Modelled from the spec: the scheduler adapter over `Kernel`.  The normal-context and the
interrupt-context notify deliver alike; the interrupt-context ones report whether a task of
higher priority was woken; a give is a delivery with `Increment`; the deferred-switch request
sets the flag. -/
def refAdapter : Adapter Kernel where
  xPortInIsrContext := fun k => k.inIsr
  xTaskNotify := fun k h v a => k.deliver h v a
  xTaskNotifyFromISR := fun k h v a =>
    ((k.deliver h v a).1, (if k.wakesHigher h then pdTRUE else pdFALSE), (k.deliver h v a).2)
  xTaskNotifyGive := fun k h => k.deliver h 0 action.Increment
  vTaskNotifyGiveFromISR := fun k h =>
    ((if k.wakesHigher h then pdTRUE else pdFALSE), (k.deliver h 0 action.Increment).2)
  ulTaskNotifyTake := fun k c t => k.take c t
  xTaskNotifyWait := fun k en ex out t => k.waitValue en ex out t
  _frxt_setup_switch := fun k => { k with deferredSwitch := true }

/-- A kernel with nothing pending for any task; the caller is task 0, deliveries to task 1
wake a task of higher priority. -/
def kernel0 (inIsr : Bool) : Kernel :=
  { inIsr := inIsr, current := 0, value := fun _ => 0, pending := fun _ => false,
    wakesHigher := fun h => h == 1, deferredSwitch := false }

/-- The state after `notify(target, V1, SetBits)` over the reference kernel. -/
def afterSetBits (s : Sys Kernel) (target : basic_task) (V1 : Nat) : Sys Kernel :=
  (task_utils.notify refAdapter s target V1 action.SetBits).2

/-- The state in which task 0 has been notified with the value 7 and has then consumed the
notification by `notify_wait(0, 0, &out, 5)`, clearing no bits: nothing is pending for
task 0, and its notification value is still 7. -/
def consumedState : Sys Kernel :=
  (task_utils.notify_wait refAdapter
    (task_utils.notify refAdapter ⟨kernel0 false, []⟩ ⟨0⟩ 7 action.SetBits).2 0 0 0 5).2.2

/-! ## `basic_stack` (memory/mn_stack.hpp) -/

/-- Modelled from the spec: the result codes of `mn_error.hpp` that the stack returns, three
different constants. -/
inductive ErrorCode where
  | NO_ERROR
  | ERR_NULL
  | ERR_UNKN
deriving DecidableEq, Repr

/-- The template parameter `TType`: the one type of the items and of the size argument, an
integer type; its values are taken as integers, as are those of `int` (the indices stay
between -1 and the size, so no arithmetic on them wraps). -/
abbrev basic_type_t := Int

/-- The members of `basic_stack<TType>`; the buffer behind `m_ulAdrr` is the function from
index to item. -/
structure basic_stack where
  m_ulAdrr : Int → basic_type_t
  m_ulSize : basic_type_t
  m_iFirst : Int
  m_iLast : Int
  m_iCurrent : Int

namespace basic_stack

/-- `internal_create(nSize, addr, offset)`. -/
def internal_create (nSize : basic_type_t) (addr : Int → basic_type_t) (offset : Int) :
    basic_stack :=
  { m_ulAdrr := addr
    m_ulSize := nSize - offset
    m_iFirst := offset - 1
    m_iCurrent := offset - 1
    m_iLast := nSize }

/-- `explicit basic_stack(nSize)`: a buffer from `malloc`, whose content `addr` is
arbitrary, and offset 0. -/
def create (nSize : basic_type_t) (addr : Int → basic_type_t) : basic_stack :=
  internal_create nSize addr 0

/-- `basic_stack(nSize, addr)`. -/
def create_at (nSize : basic_type_t) (addr : Int → basic_type_t) : basic_stack :=
  internal_create nSize addr 0

/-- `basic_stack(nSize, addr, offset)`. -/
def create_offset (nSize : basic_type_t) (addr : Int → basic_type_t) (offset : Int) :
    basic_stack :=
  internal_create nSize addr offset

/-- `count()`: `m_iCurrent + 1`. -/
def count (s : basic_stack) : Int := s.m_iCurrent + 1

/-- `size()`: `m_ulSize`. -/
def size (s : basic_stack) : Int := s.m_ulSize

/-- `is_empty()`: `m_iCurrent == -1`. -/
def is_empty (s : basic_stack) : Bool := decide (s.m_iCurrent = -1)

/-- `is_full()`: `m_iCurrent == (m_iLast - 1)`. -/
def is_full (s : basic_stack) : Bool := decide (s.m_iCurrent = s.m_iLast - 1)

/-- `get_left()`: `m_ulSize - (m_iCurrent + 1)`. -/
def get_left (s : basic_stack) : Int := s.m_ulSize - (s.m_iCurrent + 1)

/-- `push(item)`: when `m_iCurrent < m_iLast - 1`, advance `m_iCurrent`, store the item
there and return `NO_ERROR`; otherwise return `ERR_UNKN`. -/
def push (s : basic_stack) (item : basic_type_t) : ErrorCode × basic_stack :=
  if s.m_iCurrent < s.m_iLast - 1 then
    (ErrorCode.NO_ERROR,
      { s with m_iCurrent := s.m_iCurrent + 1
               m_ulAdrr := fun i => if i = s.m_iCurrent + 1 then item else s.m_ulAdrr i })
  else (ErrorCode.ERR_UNKN, s)

/-- `pop(item)`: the argument is `none` for a null pointer and `some v` for a pointer to a
cell that holds `v`; the last component of the result is the cell after the call. -/
def pop (s : basic_stack) (item : Option basic_type_t) :
    ErrorCode × basic_stack × Option basic_type_t :=
  match item with
  | none => (ErrorCode.ERR_NULL, s, none)
  | some v =>
    if s.count > 0 then
      (ErrorCode.NO_ERROR, { s with m_iCurrent := s.m_iCurrent - 1 }, some (s.m_ulAdrr s.m_iCurrent))
    else (ErrorCode.ERR_UNKN, s, some v)

/-- `peek(item)`: as `pop`, without moving `m_iCurrent`. -/
def peek (s : basic_stack) (item : Option basic_type_t) :
    ErrorCode × basic_stack × Option basic_type_t :=
  match item with
  | none => (ErrorCode.ERR_NULL, s, none)
  | some v =>
    if s.count > 0 then (ErrorCode.NO_ERROR, s, some (s.m_ulAdrr s.m_iCurrent))
    else (ErrorCode.ERR_UNKN, s, some v)

/-- The stacks that a program can have: built by a constructor with a size and an offset
into the buffer of that size (`0 ≤ offset ≤ nSize`), then changed by `push`, `pop`, `peek`. -/
inductive Reachable : basic_stack → Prop where
  | created (nSize : basic_type_t) (addr : Int → basic_type_t) (offset : Int)
      (h0 : 0 ≤ offset) (h1 : offset ≤ nSize) : Reachable (create_offset nSize addr offset)
  | pushed (s : basic_stack) (x : basic_type_t) : Reachable s → Reachable (s.push x).2
  | popped (s : basic_stack) (item : Option basic_type_t) : Reachable s → Reachable (s.pop item).2.1
  | peeked (s : basic_stack) (item : Option basic_type_t) : Reachable s → Reachable (s.peek item).2.1

/-- Push the items of a list one after the other, first item first. -/
def pushAll (s : basic_stack) : List basic_type_t → basic_stack
  | [] => s
  | x :: xs => pushAll (s.push x).2 xs

/-- Pop `k` times into a cell; the results and cell contents in the order of the calls, and
the stack at the end. -/
def popMany : Nat → basic_stack → List (ErrorCode × Option basic_type_t) × basic_stack
  | 0, s => ([], s)
  | k + 1, s =>
    (((s.pop (some 0)).1, (s.pop (some 0)).2.2) :: (popMany k (s.pop (some 0)).2.1).1,
      (popMany k (s.pop (some 0)).2.1).2)

/-- Two stacks with the same indices and the same items up to the top. -/
def SameItems (s t : basic_stack) : Prop :=
  t.m_iCurrent = s.m_iCurrent ∧ t.m_iLast = s.m_iLast ∧ t.m_iFirst = s.m_iFirst ∧
    t.m_ulSize = s.m_ulSize ∧ ∀ i, i ≤ s.m_iCurrent → t.m_ulAdrr i = s.m_ulAdrr i

/-- A stack of size 4 over a zeroed buffer. -/
def stack4 : basic_stack := create 4 (fun _ => 0)

/-- The number of `push` calls that succeed from here on, trying at most `fuel` calls. -/
def pushesLeft : Nat → basic_stack → Nat
  | 0, _ => 0
  | fuel + 1, s =>
    if (s.push 0).1 = ErrorCode.NO_ERROR then pushesLeft fuel (s.push 0).2 + 1 else 0

/-- A stack of size 4 that starts at offset 2 of a zeroed buffer:
`basic_stack(4, addr, 2)`. -/
def stackOffset2 : basic_stack := create_offset 4 (fun _ => 0) 2

end basic_stack

/-! ## `basic_allocator_buffer` (mn_allocator_buffer.hpp)

Values of type `size_t` are natural numbers below `2 ^ 32` (the library targets the ESP32);
sums, products and differences of them wrap.  A pointer into the backing buffer is the
offset from `&m_buffer[0]`. -/

/-- The number of values of `size_t`. -/
def SIZE_T_RANGE : Nat := 2 ^ 32

/-- The members of the base class `allocator_interface` that the buffer allocator calls.
The class is declared in `mn_allocator_interface.hpp`, outside the files embedded here; its
members are parameters, functions of the state `B` of the base object. -/
structure allocator_interface (B : Type) where
  init : Nat → B
  is_free : B → Nat → Bool
  get_max : B → Nat
  get_allocated : B → Nat
  add_allocatedsize : B → Nat → B

/-- The members of `basic_allocator_buffer`: the base object, the bytes of the backing
buffer `m_buffer`, `m_bufferTop` and `m_BufferSize`. -/
structure basic_allocator_buffer (B : Type) where
  base : B
  m_buffer : Nat → Nat
  m_bufferTop : Nat
  m_BufferSize : Nat

namespace basic_allocator_buffer

/-- The constructor `basic_allocator_buffer(TBUFFER, TSIZE)`:
`allocator_interface(TSIZE), m_bufferTop(0), m_BufferSize(TSIZE), m_buffer(TBUFFER)`. -/
def create {B : Type} (I : allocator_interface B) (TBUFFER : Nat → Nat) (TSIZE : Nat) :
    basic_allocator_buffer B :=
  { base := I.init TSIZE, m_buffer := TBUFFER, m_bufferTop := 0, m_BufferSize := TSIZE }

/-- `calloc(n, size, buf, xTime)`.  The argument `buf` is the content of the cell `*buf`
before the call; the result is the returned value, the content of `*buf` after the call and
the allocator after the call, or `none` when the `assert` stops the program. -/
def calloc {B : Type} (I : allocator_interface B) (a : basic_allocator_buffer B)
    (n size : Nat) (buf : Nat) (_xTime : Nat) : Option (Nat × Nat × basic_allocator_buffer B) :=
  let index := (size * n) % SIZE_T_RANGE
  if I.is_free a.base index then
    if (I.get_max a.base + SIZE_T_RANGE - I.get_allocated a.base) % SIZE_T_RANGE < index then
      some (0, buf, a)
    else if (a.m_bufferTop + index) % SIZE_T_RANGE ≤ a.m_BufferSize then
      some (size, a.m_bufferTop,
        { a with m_bufferTop := (a.m_bufferTop + index) % SIZE_T_RANGE
                 base := I.add_allocatedsize a.base index })
    else none
  else some (0, buf, a)

end basic_allocator_buffer

/-- Modelled from the spec: the bookkeeping of the base class `allocator_interface` for a
bump allocator that never frees: the limit given at construction and the count of bytes
handed out so far; a request is free when it fits under the limit. -/
def bumpInterface : allocator_interface (Nat × Nat) where
  init := fun maxSize => (maxSize, 0)
  is_free := fun b size => decide (b.2 + size ≤ b.1)
  get_max := fun b => b.1
  get_allocated := fun b => b.2
  add_allocatedsize := fun b size => (b.1, (b.2 + size) % SIZE_T_RANGE)

/-- An allocator over a backing buffer of 8 bytes that all hold 255. -/
def allocator8 : basic_allocator_buffer (Nat × Nat) :=
  basic_allocator_buffer.create bumpInterface (fun _ => 255) 8

end MiniThread

/-! # Theorems -/

namespace MiniThread

/-! ## Waitable task: `signal`, `wait` -/

/-- C1: on a task whose running lock is free (no wait or signal in progress), in particular
on a task that has just been created, `signal()` returns and the following
`wait(cv, cvl, 0)` returns "woken by signal", not "timed out"; the wait has consumed the
banked credit, the semaphore is in the acquired state again. -/
theorem signal_then_wait_is_woken (w : World) (t : Nat)
    (hfree : (w.tasks t).m_runningMutex.held = false) :
    ∃ w1 w2, signal w t = some w1 ∧ wait w1 t 0 = some (WaitResult.woken, w2) ∧
      (w2.tasks t).m_waitSem.available = false := by
  simp [signal, wait, autolock_acquire, autolock_release, waitSem_unlock, on_signal,
    waitSem_lock_timed, add_list, cvl_unlock, cvl_lock, LockType_t.lock, LockType_t.unlock,
    basic_binary_semaphore.unlock, basic_binary_semaphore.lock_timed, World.setTask,
    World.log, hfree]

/-- Witness of C1 at task 0 of `world1`, the world right after `on_create`. -/
theorem signal_then_wait_is_woken_witness :
    (world1.tasks 0).m_runningMutex.held = false ∧
    ∃ w1 w2, signal world1 0 = some w1 ∧ wait w1 0 0 = some (WaitResult.woken, w2) ∧
      (w2.tasks 0).m_waitSem.available = false :=
  ⟨by decide, signal_then_wait_is_woken world1 0 (by decide)⟩

/-- C2: `on_create` leaves the private semaphore in the acquired state; on a task whose
semaphore is in that state (no signal since `on_create`) and whose running lock is free,
`wait(cv, cvl, timeOut)` returns "timed out" for every timeout, with the external lock held
and the semaphore still acquired, so the next wait times out as well; and whatever `wait`
returns, from any state, the external lock is held on return. -/
theorem wait_without_signal_times_out (w : World) (t timeOut : Nat)
    (hfree : (w.tasks t).m_runningMutex.held = false) :
    (∃ wc, on_create w t = some wc ∧ (wc.tasks t).m_waitSem.available = false ∧
      (wc.tasks t).m_runningMutex.held = false ∧
      ∃ w', wait wc t timeOut = some (WaitResult.timedOut, w') ∧ w'.cvl.held = true ∧
        (w'.tasks t).m_waitSem.available = false ∧
        (w'.tasks t).m_runningMutex.held = false) ∧
    ((w.tasks t).m_waitSem.available = false →
      ∃ w', wait w t timeOut = some (WaitResult.timedOut, w') ∧ w'.cvl.held = true ∧
        (w'.tasks t).m_waitSem.available = false ∧
        (w'.tasks t).m_runningMutex.held = false) ∧
    (∀ v r v', wait v t timeOut = some (r, v') → v'.cvl.held = true) := by
  refine ⟨?_, ?_, ?_⟩
  · simp [on_create, wait, autolock_acquire, autolock_release, waitSem_lock_timed, add_list,
      cvl_unlock, cvl_lock, LockType_t.lock, LockType_t.unlock,
      basic_binary_semaphore.create, basic_binary_semaphore.lock,
      basic_binary_semaphore.lock_timed, World.setTask, World.log, hfree]
  · intro hsem
    simp [wait, autolock_acquire, autolock_release, waitSem_lock_timed, add_list,
      cvl_unlock, cvl_lock, LockType_t.lock, LockType_t.unlock,
      basic_binary_semaphore.lock_timed, World.setTask, World.log, hfree, hsem]
  · intro v r v' h
    unfold wait at h
    cases hv : (v.tasks t).m_runningMutex.held <;>
      simp [autolock_acquire, autolock_release, waitSem_lock_timed, add_list,
        cvl_unlock, cvl_lock, LockType_t.lock, LockType_t.unlock, World.setTask, World.log,
        hv] at h
    rw [← h.2]

/-- Witness of C2 at task 0 of `world0` with a timeout of 100 ticks. -/
theorem wait_without_signal_times_out_witness :
    (∃ wc, on_create world0 0 = some wc ∧ (wc.tasks 0).m_waitSem.available = false ∧
      (wc.tasks 0).m_runningMutex.held = false ∧
      ∃ w', wait wc 0 100 = some (WaitResult.timedOut, w') ∧ w'.cvl.held = true ∧
        (w'.tasks 0).m_waitSem.available = false ∧
        (w'.tasks 0).m_runningMutex.held = false) ∧
    ((world0.tasks 0).m_waitSem.available = false →
      ∃ w', wait world0 0 100 = some (WaitResult.timedOut, w') ∧ w'.cvl.held = true ∧
        (w'.tasks 0).m_waitSem.available = false ∧
        (w'.tasks 0).m_runningMutex.held = false) ∧
    (∀ v r v', wait v 0 100 = some (r, v') → v'.cvl.held = true) :=
  wait_without_signal_times_out world0 0 100 (by decide)

/-- C4: a call `wait(cv, cvl, timeOut)` that finds the running lock free returns, and its
effects are exactly, in this order: acquire the running lock, register the task in the wait
set of `cv`, release the external lock, acquire the private semaphore with the given
timeout, re-acquire the external lock (and, on leaving the scope, release the running
lock); the task is the newest member of the wait set.  A call that finds the running lock
held does not get past the acquire. -/
theorem wait_effects_in_order (w : World) (t timeOut : Nat) :
    ((w.tasks t).m_runningMutex.held = false →
      ∃ r w', wait w t timeOut = some (r, w') ∧ w'.trace = w.trace ++ wait_trace t timeOut ∧
        w'.cv = w.cv ++ [t]) ∧
    ((w.tasks t).m_runningMutex.held = true → wait w t timeOut = none) ∧
    wait_trace t timeOut =
      [Event.running_lock t, Event.add_list t, Event.cvl_unlock,
        Event.sem_lock_timed t timeOut, Event.cvl_lock, Event.running_unlock t] := by
  refine ⟨?_, ?_, rfl⟩
  · intro hfree
    simp [wait, wait_trace, autolock_acquire, autolock_release, waitSem_lock_timed, add_list,
      cvl_unlock, cvl_lock, LockType_t.lock, LockType_t.unlock, World.setTask, World.log,
      hfree]
    exact ⟨_, _, ⟨rfl, rfl⟩, rfl, rfl⟩
  · intro hheld
    simp [wait, autolock_acquire, LockType_t.lock, hheld]

/-- Witness of C4: the trace of `wait(cv, cvl, 7)` of task 0 in `world1`. -/
theorem wait_effects_in_order_witness :
    (world1.tasks 0).m_runningMutex.held = false ∧
    ∃ r w', wait world1 0 7 = some (r, w') ∧ w'.trace = world1.trace ++ wait_trace 0 7 ∧
      w'.cv = world1.cv ++ [0] :=
  ⟨by decide, (wait_effects_in_order world1 0 7).1 (by decide)⟩

/-! ## Waitable task: `signal_all` along the chain -/

/-- Being a chain only depends on the `m_pChild` links. -/
theorem IsChain_congr (w v : World) (h : ∀ i, (v.tasks i).m_pChild = (w.tasks i).m_pChild) :
    ∀ ts : List Nat, IsChain w ts → IsChain v ts
  | [], hc => hc
  | [t], hc => by
    simp only [IsChain] at hc ⊢
    rw [h, hc]
  | t :: c :: rest, hc => by
    simp only [IsChain] at hc ⊢
    exact ⟨by rw [h, hc.1], IsChain_congr w v h (c :: rest) hc.2⟩

/-- The world after the first three effects of `signal`/`signal_all` on a task whose
running lock is free. -/
theorem signal_head (w : World) (t : Nat) (hfree : (w.tasks t).m_runningMutex.held = false) :
    ∃ w1, autolock_acquire w t = some w1 ∧
      (on_signal (waitSem_unlock w1 t) t).trace =
        w.trace ++ [Event.running_lock t, Event.sem_unlock t, Event.on_signal t] ∧
      (on_signal (waitSem_unlock w1 t) t).cv = w.cv ∧
      (on_signal (waitSem_unlock w1 t) t).cvl = w.cvl ∧
      (on_signal (waitSem_unlock w1 t) t).tasks t = ⟨⟨true⟩, ⟨true⟩, (w.tasks t).m_pChild⟩ ∧
      ∀ i, i ≠ t → (on_signal (waitSem_unlock w1 t) t).tasks i = w.tasks i := by
  refine ⟨(w.setTask t { w.tasks t with m_runningMutex := ⟨true⟩ }).log (Event.running_lock t),
    by simp [autolock_acquire, LockType_t.lock, hfree], ?_, ?_, ?_, ?_, ?_⟩
  · simp [on_signal, waitSem_unlock, World.setTask, World.log]
  · simp [on_signal, waitSem_unlock, World.setTask, World.log]
  · simp [on_signal, waitSem_unlock, World.setTask, World.log]
  · simp [on_signal, waitSem_unlock, World.setTask, World.log, basic_binary_semaphore.unlock]
  · intro i hi
    simp [on_signal, waitSem_unlock, World.setTask, World.log, hi]

/-- Leaving the scope of the running lock of `t` frees that lock, records the release, and
touches nothing else. -/
theorem autolock_release_spec (w : World) (t : Nat) :
    (autolock_release w t).trace = w.trace ++ [Event.running_unlock t] ∧
    (autolock_release w t).cv = w.cv ∧ (autolock_release w t).cvl = w.cvl ∧
    (autolock_release w t).tasks t =
      ⟨(w.tasks t).m_waitSem, ⟨false⟩, (w.tasks t).m_pChild⟩ ∧
    ∀ i, i ≠ t → (autolock_release w t).tasks i = w.tasks i := by
  refine ⟨rfl, rfl, rfl, ?_, ?_⟩
  · simp [autolock_release, World.setTask, World.log, LockType_t.unlock]
  · intro i hi
    simp [autolock_release, World.setTask, World.log, hi]

/-- On an acyclic chain `t :: ts` whose running locks are all free, `signal_all` with more
fuel than the chain has further tasks returns; it appends `signal_all_trace (t :: ts)` to
the trace, leaves every chain task with its semaphore released and its running lock free,
and leaves every other object as it was. -/
theorem signal_all_chain (ts : List Nat) :
    ∀ (w : World) (t fuel : Nat), IsChain w (t :: ts) → (t :: ts).Nodup →
      (∀ i ∈ t :: ts, (w.tasks i).m_runningMutex.held = false) → ts.length < fuel →
      ∃ w', signal_all fuel w t = some w' ∧
        w'.trace = w.trace ++ signal_all_trace (t :: ts) ∧
        w'.cv = w.cv ∧ w'.cvl = w.cvl ∧
        (∀ i ∈ t :: ts, w'.tasks i = ⟨⟨true⟩, ⟨false⟩, (w.tasks i).m_pChild⟩) ∧
        (∀ i, i ∉ t :: ts → w'.tasks i = w.tasks i) := by
  induction ts with
  | nil =>
    intro w t fuel hc _ hfree hfuel
    obtain ⟨f, rfl⟩ : ∃ f, fuel = f + 1 := ⟨fuel - 1, by omega⟩
    have ht := hfree t (by simp)
    obtain ⟨w1, h1, htr, hcv, hcvl, htt, hoth⟩ := signal_head w t ht
    have hchild : ((on_signal (waitSem_unlock w1 t) t).tasks t).m_pChild = none := by
      rw [htt]; exact hc
    obtain ⟨rtr, rcv, rcvl, rtt, roth⟩ := autolock_release_spec (on_signal (waitSem_unlock w1 t) t) t
    refine ⟨autolock_release (on_signal (waitSem_unlock w1 t) t) t, ?_, ?_, ?_, ?_, ?_, ?_⟩
    · simp only [signal_all, h1, hchild]
    · rw [rtr, htr]; simp [signal_all_trace]
    · rw [rcv, hcv]
    · rw [rcvl, hcvl]
    · intro i hi
      have : i = t := by simpa using hi
      subst this
      rw [rtt, htt]
    · intro i hi
      have hne : i ≠ t := by simpa using hi
      rw [roth i hne, hoth i hne]
  | cons c rest ih =>
    intro w t fuel hc hnd hfree hfuel
    obtain ⟨f, rfl⟩ : ∃ f, fuel = f + 1 := ⟨fuel - 1, by simp at hfuel; omega⟩
    have ht := hfree t (by simp)
    obtain ⟨w1, h1, htr, hcv, hcvl, htt, hoth⟩ := signal_head w t ht
    simp only [IsChain] at hc
    have hchild : ((on_signal (waitSem_unlock w1 t) t).tasks t).m_pChild = some c := by
      rw [htt]; exact hc.1
    have hnd2 : (c :: rest).Nodup := (List.nodup_cons.mp hnd).2
    have htnot : t ∉ c :: rest := (List.nodup_cons.mp hnd).1
    have hne : ∀ i ∈ c :: rest, i ≠ t := fun i hi h => htnot (h ▸ hi)
    have hc3 : IsChain (on_signal (waitSem_unlock w1 t) t) (c :: rest) := by
      refine IsChain_congr w _ ?_ _ hc.2
      intro i
      by_cases hi : i = t
      · subst hi; rw [htt]
      · rw [hoth i hi]
    have hfree3 : ∀ i ∈ c :: rest,
        ((on_signal (waitSem_unlock w1 t) t).tasks i).m_runningMutex.held = false := by
      intro i hi
      rw [hoth i (hne i hi)]
      exact hfree i (List.mem_cons_of_mem _ hi)
    obtain ⟨w4, h4, tr4, cv4, cvl4, in4, out4⟩ :=
      ih (on_signal (waitSem_unlock w1 t) t) c f hc3 hnd2 hfree3 (by simp at hfuel; omega)
    obtain ⟨rtr, rcv, rcvl, rtt, roth⟩ := autolock_release_spec w4 t
    refine ⟨autolock_release w4 t, ?_, ?_, ?_, ?_, ?_, ?_⟩
    · simp only [signal_all, h1, hchild, h4]
    · rw [rtr, tr4, htr]
      simp [signal_all_trace]
    · rw [rcv, cv4, hcv]
    · rw [rcvl, cvl4, hcvl]
    · intro i hi
      rcases List.mem_cons.mp hi with h | h
      · subst h
        rw [rtt, out4 i htnot, htt]
      · rw [roth i (hne i h), in4 i h, hoth i (hne i h)]
    · intro i hi
      have hit : i ≠ t := fun h => hi (h ▸ List.mem_cons_self _ _)
      have hir : i ∉ c :: rest := fun h => hi (List.mem_cons_of_mem _ h)
      rw [roth i hit, out4 i hir, hoth i hit]

/-- The semaphore releases and the hook calls in the trace of `signal_all` are those of the
chain tasks, each once, in chain order. -/
theorem signal_all_trace_calls (ts : List Nat) :
    semReleases (signal_all_trace ts) = ts ∧ hookCalls (signal_all_trace ts) = ts := by
  have hs : ∀ (a b : List Event), semReleases (a ++ b) = semReleases a ++ semReleases b := by
    intro a b
    induction a with
    | nil => rfl
    | cons e a ih => cases e <;> simp [semReleases, ih]
  have hh : ∀ (a b : List Event), hookCalls (a ++ b) = hookCalls a ++ hookCalls b := by
    intro a b
    induction a with
    | nil => rfl
    | cons e a ih => cases e <;> simp [hookCalls, ih]
  induction ts with
  | nil => exact ⟨rfl, rfl⟩
  | cons t rest ih =>
    constructor
    · simp [signal_all_trace, hs, semReleases, ih.1]
    · simp [signal_all_trace, hh, hookCalls, ih.2]

/-- C3: on an acyclic chain `t :: ts` of waitable tasks linked through `m_pChild`, with no
other call in progress on them (running locks free), `t.signal_all()` returns as soon as the
recursion bound exceeds the number of further tasks; the effects it adds are
`signal_all_trace (t :: ts)`: the semaphore releases are those of the chain tasks in chain
order, each exactly once, and so are the `on_signal()` calls; afterwards every chain task
has its semaphore released, and no task outside the chain is changed. -/
theorem signal_all_visits_chain_once (w : World) (t : Nat) (ts : List Nat)
    (hchain : IsChain w (t :: ts)) (hacyclic : (t :: ts).Nodup)
    (hfree : ∀ i ∈ t :: ts, (w.tasks i).m_runningMutex.held = false)
    (fuel : Nat) (hfuel : ts.length < fuel) :
    ∃ w' evs, signal_all fuel w t = some w' ∧ w'.trace = w.trace ++ evs ∧
      evs = signal_all_trace (t :: ts) ∧
      semReleases evs = t :: ts ∧ hookCalls evs = t :: ts ∧
      (∀ i, (semReleases evs).count i = if i ∈ t :: ts then 1 else 0) ∧
      (∀ i, (hookCalls evs).count i = if i ∈ t :: ts then 1 else 0) ∧
      (∀ i ∈ t :: ts, (w'.tasks i).m_waitSem.available = true) ∧
      (∀ i, i ∉ t :: ts → w'.tasks i = w.tasks i) := by
  obtain ⟨w', h, htr, _, _, hin, hout⟩ := signal_all_chain ts w t fuel hchain hacyclic hfree hfuel
  obtain ⟨hs, hh⟩ := signal_all_trace_calls (t :: ts)
  have hcount : ∀ i, (t :: ts).count i = if i ∈ t :: ts then 1 else 0 := by
    intro i
    by_cases hi : i ∈ t :: ts
    · rw [if_pos hi]; exact List.count_eq_one_of_mem hacyclic hi
    · rw [if_neg hi]; exact List.count_eq_zero_of_not_mem hi
  refine ⟨w', signal_all_trace (t :: ts), h, htr, rfl, hs, hh, ?_, ?_, ?_, hout⟩
  · rw [hs]; exact hcount
  · rw [hh]; exact hcount
  · intro i hi
    rw [hin i hi]

/-- Witness of C3 on the chain 0 -> 1 -> 2 -> 3 -> 4 -> 5 of `chainWorld` (six tasks). -/
theorem signal_all_visits_chain_once_witness :
    IsChain chainWorld [0, 1, 2, 3, 4, 5] ∧ [0, 1, 2, 3, 4, 5].Nodup ∧
    ∃ w' evs, signal_all 6 chainWorld 0 = some w' ∧ w'.trace = chainWorld.trace ++ evs ∧
      evs = signal_all_trace [0, 1, 2, 3, 4, 5] ∧
      semReleases evs = [0, 1, 2, 3, 4, 5] ∧ hookCalls evs = [0, 1, 2, 3, 4, 5] ∧
      (∀ i, (semReleases evs).count i = if i ∈ [0, 1, 2, 3, 4, 5] then 1 else 0) ∧
      (∀ i, (hookCalls evs).count i = if i ∈ [0, 1, 2, 3, 4, 5] then 1 else 0) ∧
      (∀ i ∈ [0, 1, 2, 3, 4, 5], (w'.tasks i).m_waitSem.available = true) ∧
      (∀ i, i ∉ [0, 1, 2, 3, 4, 5] → w'.tasks i = chainWorld.tasks i) :=
  ⟨by simp [IsChain, chainWorld], by decide,
    signal_all_visits_chain_once chainWorld 0 [1, 2, 3, 4, 5] (by simp [IsChain, chainWorld])
      (by decide) (fun _ _ => rfl) 6 (by decide)⟩

/-! ## `wait` against a concurrent `signal` -/

/-- Every step of either thread and every tick preserves `waiterShutsOut`. -/
theorem waiterShutsOut_step (s : Interleaving) (c : Sched) (h : waiterShutsOut s) :
    waiterShutsOut (step s c) := by
  obtain ⟨⟨⟨av⟩, ⟨held⟩, child⟩, cv, ⟨cvlh⟩, wpc, spc, ticks, hooks⟩ := s
  cases c <;> cases wpc <;> cases spc <;> cases av <;> cases held <;> cases cvlh <;>
    rcases ticks with _ | n <;>
    simp_all [waiterShutsOut, step, stepWaiter, stepSignaller, LockType_t.lock,
      LockType_t.unlock, basic_binary_semaphore.lock, basic_binary_semaphore.unlock]

/-- The state `registered timeOut` satisfies `waiterShutsOut`, and so does every state
reached from it. -/
theorem waiterShutsOut_run (timeOut : Nat) (sched : List Sched) :
    waiterShutsOut (run sched (registered timeOut)) := by
  have h0 : waiterShutsOut (registered timeOut) := by
    simp [waiterShutsOut, registered]
  have hrun : ∀ (l : List Sched) (s : Interleaving), waiterShutsOut s → waiterShutsOut (run l s) := by
    intro l
    induction l with
    | nil => intro s hs; exact hs
    | cons c l ih => intro s hs; exact ih (step s c) (waiterShutsOut_step s c hs)
  exact hrun sched _ h0

/-- C5 (evaluation of the code): once the waiter has registered, a concurrent `T.signal()`
cannot wake it.  For every timeout and every interleaving of the two threads and the clock,
`wait` has either not returned yet or has returned "timed out", never "woken"; and while
the waiter has not left `wait` the semaphore is without token.  In the schedule shown, with
a timeout of 2 ticks, the signaller tries three times before the timeout expires and
stays at its acquire; the wait returns "timed out" and only then the signal goes through,
leaving its token in the semaphore. -/
theorem signal_during_wait_is_shut_out :
    (∀ (timeOut : Nat) (sched : List Sched),
      waitReturned (run sched (registered timeOut)) = none ∨
      waitReturned (run sched (registered timeOut)) = some WaitResult.timedOut) ∧
    (∀ (timeOut : Nat) (sched : List Sched),
      waitReturned (run sched (registered timeOut)) = some WaitResult.timedOut ∨
      (run sched (registered timeOut)).task.m_waitSem.available = false) ∧
    run [Sched.waiter, Sched.signaller, Sched.tick, Sched.signaller, Sched.signaller]
        (registered 2) =
      { task := ⟨⟨false⟩, ⟨true⟩, none⟩, cv := [0], cvl := ⟨false⟩, waiter := WaitPc.sem_lock,
        signaller := SignalPc.acquire, ticksLeft := 1, hooks := 0 } ∧
    run [Sched.waiter, Sched.signaller, Sched.tick, Sched.signaller, Sched.signaller,
         Sched.tick, Sched.waiter, Sched.waiter, Sched.waiter,
         Sched.signaller, Sched.signaller, Sched.signaller, Sched.signaller]
        (registered 2) =
      { task := ⟨⟨true⟩, ⟨false⟩, none⟩, cv := [0], cvl := ⟨true⟩,
        waiter := WaitPc.done WaitResult.timedOut, signaller := SignalPc.done,
        ticksLeft := 0, hooks := 1 } := by
  refine ⟨?_, ?_, by decide, by decide⟩
  · intro timeOut sched
    have h := waiterShutsOut_run timeOut sched
    revert h
    generalize run sched (registered timeOut) = s
    intro h
    unfold waiterShutsOut at h
    unfold waitReturned
    split at h <;> simp_all
  · intro timeOut sched
    have h := waiterShutsOut_run timeOut sched
    revert h
    generalize run sched (registered timeOut) = s
    intro h
    unfold waiterShutsOut at h
    unfold waitReturned
    split at h <;> simp_all

/-! ## Notification channel -/

/-- C6: for every adapter, kernel state, target, value and action.  In interrupt context
`notify` and `notify_unlock` call, after the context query, only the `FromISR` primitive
and, exactly when that primitive reports a woken task of higher priority, the
deferred-switch request `_frxt_setup_switch`; they call no normal-context primitive and
no immediate switch (`taskYIELD`).  Outside interrupt context they call only the
normal-context primitive, and the kernel state is the one that primitive returned: the
deferred-switch request is not made. -/
theorem notify_respects_context {K : Type} (A : Adapter K) (s : Sys K) (target : basic_task)
    (value : Nat) (act : action) :
    (A.xPortInIsrContext s.kernel = true →
      (task_utils.notify A s target value act).2.calls =
        s.calls ++ [Call.xPortInIsrContext, Call.xTaskNotifyFromISR target.get_handle value act]
          ++ (if (A.xTaskNotifyFromISR s.kernel target.get_handle value act).2.1 ≠ 0
              then [Call._frxt_setup_switch] else []) ∧
      (task_utils.notify_unlock A s target).2.calls =
        s.calls ++ [Call.xPortInIsrContext, Call.vTaskNotifyGiveFromISR target.get_handle]
          ++ (if (A.vTaskNotifyGiveFromISR s.kernel target.get_handle).1 ≠ 0
              then [Call._frxt_setup_switch] else []) ∧
      (∀ c, c ∈ (task_utils.notify A s target value act).2.calls → c ∉ s.calls →
        c.normalContext = false) ∧
      (∀ c, c ∈ (task_utils.notify_unlock A s target).2.calls → c ∉ s.calls →
        c.normalContext = false)) ∧
    (A.xPortInIsrContext s.kernel = false →
      (task_utils.notify A s target value act).2.calls =
        s.calls ++ [Call.xPortInIsrContext, Call.xTaskNotify target.get_handle value act] ∧
      (task_utils.notify A s target value act).2.kernel =
        (A.xTaskNotify s.kernel target.get_handle value act).2 ∧
      (task_utils.notify_unlock A s target).2.calls =
        s.calls ++ [Call.xPortInIsrContext, Call.xTaskNotifyGive target.get_handle] ∧
      (task_utils.notify_unlock A s target).2.kernel =
        (A.xTaskNotifyGive s.kernel target.get_handle).2) := by
  constructor
  · intro hisr
    have h1 : (task_utils.notify A s target value act).2.calls =
        s.calls ++ [Call.xPortInIsrContext, Call.xTaskNotifyFromISR target.get_handle value act]
          ++ (if (A.xTaskNotifyFromISR s.kernel target.get_handle value act).2.1 ≠ 0
              then [Call._frxt_setup_switch] else []) := by
      simp only [task_utils.notify, hisr, if_true]
      split <;> simp
    have h2 : (task_utils.notify_unlock A s target).2.calls =
        s.calls ++ [Call.xPortInIsrContext, Call.vTaskNotifyGiveFromISR target.get_handle]
          ++ (if (A.vTaskNotifyGiveFromISR s.kernel target.get_handle).1 ≠ 0
              then [Call._frxt_setup_switch] else []) := by
      simp only [task_utils.notify_unlock, hisr, if_true]
      split <;> simp
    refine ⟨h1, h2, ?_, ?_⟩
    · intro c hc hnot
      rw [h1] at hc
      simp only [List.mem_append, List.mem_cons, List.mem_singleton] at hc
      rcases hc with (hc | hc | hc) | hc
      · exact absurd hc hnot
      · subst hc; rfl
      · rcases hc with hc | hc
        · subst hc; rfl
        · simp at hc
      · split at hc
        · simp at hc; subst hc; rfl
        · simp at hc
    · intro c hc hnot
      rw [h2] at hc
      simp only [List.mem_append, List.mem_cons, List.mem_singleton] at hc
      rcases hc with (hc | hc | hc) | hc
      · exact absurd hc hnot
      · subst hc; rfl
      · rcases hc with hc | hc
        · subst hc; rfl
        · simp at hc
      · split at hc
        · simp at hc; subst hc; rfl
        · simp at hc
  · intro hnorm
    simp [task_utils.notify, task_utils.notify_unlock, hnorm]

/-- Witness of C6 on the reference kernel: a delivery to task 1 from interrupt context,
which wakes a task of higher priority, and the same delivery from task context. -/
theorem notify_respects_context_witness :
    (task_utils.notify refAdapter ⟨kernel0 true, []⟩ ⟨1⟩ 5 action.SetBits).2.calls =
      [Call.xPortInIsrContext, Call.xTaskNotifyFromISR 1 5 action.SetBits,
        Call._frxt_setup_switch] ∧
    (task_utils.notify refAdapter ⟨kernel0 false, []⟩ ⟨1⟩ 5 action.SetBits).2.calls =
      [Call.xPortInIsrContext, Call.xTaskNotify 1 5 action.SetBits] :=
  ⟨((notify_respects_context refAdapter ⟨kernel0 true, []⟩ ⟨1⟩ 5 action.SetBits).1 rfl).1,
    ((notify_respects_context refAdapter ⟨kernel0 false, []⟩ ⟨1⟩ 5 action.SetBits).2 rfl).1⟩

/-- C7 (as stated, refuted): in interrupt context, with a timeout of 5 ticks,
`notify_lock(true, 5)` calls the blocking take `ulTaskNotifyTake(pdTRUE, 5)` and
`notify_wait(0, 0, &out, 5)` calls the blocking wait `xTaskNotifyWait(0, 0, &out, 5)`;
nothing is deferred. -/
theorem notify_lock_blocks_in_interrupt_context :
    refAdapter.xPortInIsrContext (kernel0 true) = true ∧
    (task_utils.notify_lock refAdapter ⟨kernel0 true, []⟩ true 5).2.calls =
      [Call.ulTaskNotifyTake pdTRUE 5] ∧
    (Call.ulTaskNotifyTake pdTRUE 5).blocking = true ∧
    (task_utils.notify_lock refAdapter ⟨kernel0 true, []⟩ true 5).2.kernel.deferredSwitch = false ∧
    (task_utils.notify_wait refAdapter ⟨kernel0 true, []⟩ 0 0 0 5).2.2.calls =
      [Call.xTaskNotifyWait 0 0 5] ∧
    (Call.xTaskNotifyWait 0 0 5).blocking = true ∧
    (task_utils.notify_wait refAdapter ⟨kernel0 true, []⟩ 0 0 0 5).2.2.kernel.deferredSwitch = false := by
  refine ⟨rfl, rfl, rfl, rfl, rfl, rfl, rfl⟩

/-- C7 (amended): `notify_lock` and `notify_wait` do not consult the interrupt-context
predicate.  For every adapter and kernel state, whatever the predicate says, each makes
exactly one call, of the blocking take respectively wait primitive with its arguments handed
on, and returns what the primitive returned; replacing the predicate of the adapter by any
other changes nothing.  In interrupt context the operations that do consult the predicate,
`notify` and `notify_unlock`, add no blocking call. -/
theorem notify_lock_forwards_in_every_context {K : Type} (A : Adapter K) (s : Sys K)
    (bClearCountOnExit : Bool) (en ex out xTicksToWait : Nat) (p : K → Bool)
    (target : basic_task) (value : Nat) (act : action) :
    (task_utils.notify_lock A s bClearCountOnExit xTicksToWait).2.calls =
      s.calls ++ [Call.ulTaskNotifyTake (if bClearCountOnExit then pdTRUE else pdFALSE)
        xTicksToWait] ∧
    (task_utils.notify_lock A s bClearCountOnExit xTicksToWait).1 =
      (A.ulTaskNotifyTake s.kernel (if bClearCountOnExit then pdTRUE else pdFALSE)
        xTicksToWait).1 ∧
    (task_utils.notify_wait A s en ex out xTicksToWait).2.2.calls =
      s.calls ++ [Call.xTaskNotifyWait en ex xTicksToWait] ∧
    ((task_utils.notify_wait A s en ex out xTicksToWait).1 = true ↔
      (A.xTaskNotifyWait s.kernel en ex out xTicksToWait).1 = pdTRUE) ∧
    (task_utils.notify_wait A s en ex out xTicksToWait).2.1 =
      (A.xTaskNotifyWait s.kernel en ex out xTicksToWait).2.1 ∧
    task_utils.notify_lock { A with xPortInIsrContext := p } s bClearCountOnExit xTicksToWait =
      task_utils.notify_lock A s bClearCountOnExit xTicksToWait ∧
    task_utils.notify_wait { A with xPortInIsrContext := p } s en ex out xTicksToWait =
      task_utils.notify_wait A s en ex out xTicksToWait ∧
    (A.xPortInIsrContext s.kernel = true →
      (∀ c, c ∈ (task_utils.notify A s target value act).2.calls → c ∉ s.calls →
        c.blocking = false) ∧
      (∀ c, c ∈ (task_utils.notify_unlock A s target).2.calls → c ∉ s.calls →
        c.blocking = false)) := by
  refine ⟨rfl, rfl, rfl, by simp [task_utils.notify_wait], rfl, rfl, rfl, ?_⟩
  intro hisr
  constructor
  · intro c hc hnot
    simp only [task_utils.notify, hisr, if_true] at hc
    split at hc <;>
      simp only [List.mem_append, List.mem_cons, List.mem_singleton, List.mem_nil_iff,
        or_false] at hc <;>
      rcases hc with hc | hc <;> first
        | exact absurd hc hnot
        | (rcases hc with hc | hc <;> first | exact absurd hc hnot | (subst hc; rfl) | (rcases hc with hc | hc <;> subst hc <;> rfl))
        | (subst hc; rfl)
  · intro c hc hnot
    simp only [task_utils.notify_unlock, hisr, if_true] at hc
    split at hc <;>
      simp only [List.mem_append, List.mem_cons, List.mem_singleton, List.mem_nil_iff,
        or_false] at hc <;>
      rcases hc with hc | hc <;> first
        | exact absurd hc hnot
        | (rcases hc with hc | hc <;> first | exact absurd hc hnot | (subst hc; rfl) | (rcases hc with hc | hc <;> subst hc <;> rfl))
        | (subst hc; rfl)

/-- Witness of the amended C7 on the reference kernel in interrupt context. -/
theorem notify_lock_forwards_in_every_context_witness :
    refAdapter.xPortInIsrContext (kernel0 true) = true ∧
    (task_utils.notify_lock refAdapter ⟨kernel0 true, []⟩ false 9).2.calls =
      [Call.ulTaskNotifyTake pdFALSE 9] ∧
    (∀ c, c ∈ (task_utils.notify refAdapter ⟨kernel0 true, []⟩ ⟨1⟩ 3 action.Increment).2.calls →
      c ∉ ([] : List Call) → c.blocking = false) :=
  ⟨rfl,
    (notify_lock_forwards_in_every_context refAdapter ⟨kernel0 true, []⟩ false 0 0 0 9
      (fun _ => false) ⟨1⟩ 3 action.Increment).1,
    ((notify_lock_forwards_in_every_context refAdapter ⟨kernel0 true, []⟩ false 0 0 0 9
      (fun _ => false) ⟨1⟩ 3 action.Increment).2.2.2.2.2.2.2 rfl).1⟩

/-- The notification value and the pending flag of a handle after a delivery. -/
theorem deliver_value (k : Kernel) (h v : Nat) (a : action) :
    ((k.deliver h v a).2.value h =
      match a with
      | action.NoAction => k.value h % 2 ^ 32
      | action.SetBits => (k.value h ||| v) % 2 ^ 32
      | action.Increment => (k.value h + 1) % 2 ^ 32
      | action.SetOverwrite => v % 2 ^ 32
      | action.SetNoOverwrite => if k.pending h then k.value h else v % 2 ^ 32) ∧
    ((k.deliver h v a).1 = pdTRUE ↔ ¬ (a = action.SetNoOverwrite ∧ k.pending h = true)) ∧
    ((k.deliver h v a).2.pending h = (k.pending h || decide (a ≠ action.SetNoOverwrite) ||
      !k.pending h)) := by
  cases a <;> cases hp : k.pending h <;>
    simp [Kernel.deliver, Kernel.store, hp, pdTRUE, pdFALSE]

/-- The value and the pending flag of a handle, and the result, after `notify` over the
reference kernel, in task context and in interrupt context alike. -/
theorem notify_refAdapter (s : Sys Kernel) (target : basic_task) (v : Nat) (a : action) :
    (task_utils.notify refAdapter s target v a).1 = decide ((s.kernel.deliver target.handle v a).1 = pdTRUE) ∧
    (task_utils.notify refAdapter s target v a).2.kernel.value =
      (s.kernel.deliver target.handle v a).2.value ∧
    (task_utils.notify refAdapter s target v a).2.kernel.pending =
      (s.kernel.deliver target.handle v a).2.pending := by
  cases hisr : s.kernel.inIsr
  · simp [task_utils.notify, refAdapter, hisr, basic_task.get_handle]
  · cases hw : s.kernel.wakesHigher target.handle <;>
      simp [task_utils.notify, refAdapter, hisr, hw, basic_task.get_handle, pdTRUE, pdFALSE]

/-- C8 (amended): over the reference kernel, for a target whose notification value is 0
and 32-bit values `V1`, `V2`, in task context and in interrupt context alike:
`notify(target, V1, SetBits)` returns true and leaves `V1` pending; a second
`notify(target, V2, SetBits)` returns true and leaves `V1 ||| V2`; with `SetOverwrite`
instead it returns true and leaves `V2`; with `SetNoOverwrite` instead it returns false and
leaves `V1`.  And for every adapter: `notify` returns true exactly when the primitive of
the path taken returns `pdTRUE`, and that primitive is called with the handle of the target
and with value and action as given. -/
theorem notify_combines_pending_value {K : Type} (A : Adapter K) (sA : Sys K) (a : action)
    (s : Sys Kernel) (target : basic_task) (V1 V2 : Nat)
    (hV1 : V1 < 2 ^ 32) (hV2 : V2 < 2 ^ 32)
    (hval : s.kernel.value target.handle = 0) :
    (task_utils.notify refAdapter s target V1 action.SetBits).1 = true ∧
    (afterSetBits s target V1).kernel.value target.handle = V1 ∧
    (afterSetBits s target V1).kernel.pending target.handle = true ∧
    (task_utils.notify refAdapter (afterSetBits s target V1) target V2 action.SetBits).1 = true ∧
    (task_utils.notify refAdapter (afterSetBits s target V1) target V2
      action.SetBits).2.kernel.value target.handle = V1 ||| V2 ∧
    (task_utils.notify refAdapter (afterSetBits s target V1) target V2
      action.SetOverwrite).1 = true ∧
    (task_utils.notify refAdapter (afterSetBits s target V1) target V2
      action.SetOverwrite).2.kernel.value target.handle = V2 ∧
    (task_utils.notify refAdapter (afterSetBits s target V1) target V2
      action.SetNoOverwrite).1 = false ∧
    (task_utils.notify refAdapter (afterSetBits s target V1) target V2
      action.SetNoOverwrite).2.kernel.value target.handle = V1 ∧
    ((task_utils.notify A sA target V1 a).1 = true ↔
      (if A.xPortInIsrContext sA.kernel
        then (A.xTaskNotifyFromISR sA.kernel target.get_handle V1 a).1
        else (A.xTaskNotify sA.kernel target.get_handle V1 a).1) = pdTRUE) ∧
    (if A.xPortInIsrContext sA.kernel
      then Call.xTaskNotifyFromISR target.get_handle V1 a
      else Call.xTaskNotify target.get_handle V1 a) ∈
        (task_utils.notify A sA target V1 a).2.calls := by
  have hor : (V1 ||| V2) % 2 ^ 32 = V1 ||| V2 := Nat.mod_eq_of_lt (Nat.or_lt_two_pow hV1 hV2)
  have h1 := notify_refAdapter s target V1 action.SetBits
  have hv1 : (afterSetBits s target V1).kernel.value target.handle = V1 := by
    unfold afterSetBits
    rw [h1.2.1, (deliver_value s.kernel target.handle V1 action.SetBits).1]
    simp only [hval, Nat.zero_or]
    exact Nat.mod_eq_of_lt hV1
  have hp1 : (afterSetBits s target V1).kernel.pending target.handle = true := by
    unfold afterSetBits
    rw [h1.2.2, (deliver_value s.kernel target.handle V1 action.SetBits).2.2]
    simp
  have res : ∀ (t : Sys Kernel) (v : Nat) (b : action),
      (task_utils.notify refAdapter t target v b).1 =
        decide (¬ (b = action.SetNoOverwrite ∧ t.kernel.pending target.handle = true)) := by
    intro t v b
    rw [(notify_refAdapter t target v b).1]
    exact decide_eq_decide.mpr (deliver_value t.kernel target.handle v b).2.1
  have val : ∀ (v : Nat) (b : action),
      (task_utils.notify refAdapter (afterSetBits s target V1) target v b).2.kernel.value
          target.handle =
        ((afterSetBits s target V1).kernel.deliver target.handle v b).2.value target.handle := by
    intro v b
    rw [(notify_refAdapter (afterSetBits s target V1) target v b).2.1]
  refine ⟨?_, hv1, hp1, ?_, ?_, ?_, ?_, ?_, ?_, ?_, ?_⟩
  · rw [res]; simp
  · rw [res]; simp
  · rw [val, (deliver_value _ target.handle V2 action.SetBits).1, hv1]
    exact hor
  · rw [res]; simp
  · rw [val, (deliver_value _ target.handle V2 action.SetOverwrite).1]
    exact Nat.mod_eq_of_lt hV2
  · rw [res]; simp [hp1]
  · rw [val, (deliver_value _ target.handle V2 action.SetNoOverwrite).1, hv1]
    simp [hp1]
  · cases hisr : A.xPortInIsrContext sA.kernel <;> simp [task_utils.notify, hisr]
  · cases hisr : A.xPortInIsrContext sA.kernel
    · simp [task_utils.notify, hisr]
    · simp only [task_utils.notify, hisr, if_true]
      split <;> simp

/-- Witness of the amended C8: `V1 = 5`, `V2 = 10` delivered to task 1 from interrupt
context. -/
theorem notify_combines_pending_value_witness :
    (task_utils.notify refAdapter ⟨kernel0 true, []⟩ ⟨1⟩ 5 action.SetBits).1 = true ∧
    (afterSetBits ⟨kernel0 true, []⟩ ⟨1⟩ 5).kernel.value 1 = 5 ∧
    (task_utils.notify refAdapter (afterSetBits ⟨kernel0 true, []⟩ ⟨1⟩ 5) ⟨1⟩ 10
      action.SetBits).2.kernel.value 1 = 15 ∧
    (task_utils.notify refAdapter (afterSetBits ⟨kernel0 true, []⟩ ⟨1⟩ 5) ⟨1⟩ 10
      action.SetOverwrite).2.kernel.value 1 = 10 ∧
    (task_utils.notify refAdapter (afterSetBits ⟨kernel0 true, []⟩ ⟨1⟩ 5) ⟨1⟩ 10
      action.SetNoOverwrite).1 = false ∧
    (task_utils.notify refAdapter (afterSetBits ⟨kernel0 true, []⟩ ⟨1⟩ 5) ⟨1⟩ 10
      action.SetNoOverwrite).2.kernel.value 1 = 5 := by
  have h := notify_combines_pending_value refAdapter ⟨kernel0 false, []⟩ action.NoAction
    ⟨kernel0 true, []⟩ ⟨1⟩ 5 10 (by decide) (by decide) rfl
  exact ⟨h.1, h.2.1, h.2.2.2.2.1, h.2.2.2.2.2.2.1, h.2.2.2.2.2.2.2.1, h.2.2.2.2.2.2.2.2.1⟩

/-- C8 (as stated, refuted): task 0 has consumed a notification of value 7 without clearing
bits, so no notification is pending for it, and its notification value is still 7.  Then
`notify(target, 1, SetBits)` followed by `notify(target, 2, SetBits)` returns true twice
and leaves the value 7, not `1 ||| 2 = 3`; and with `SetNoOverwrite` as the second call the
call returns false and the value stays 7, not `V1 = 1`. -/
theorem notify_keeps_consumed_bits :
    consumedState.kernel.pending 0 = false ∧
    consumedState.kernel.value 0 = 7 ∧
    (task_utils.notify refAdapter consumedState ⟨0⟩ 1 action.SetBits).1 = true ∧
    (task_utils.notify refAdapter (afterSetBits consumedState ⟨0⟩ 1) ⟨0⟩ 2
      action.SetBits).1 = true ∧
    (task_utils.notify refAdapter (afterSetBits consumedState ⟨0⟩ 1) ⟨0⟩ 2
      action.SetBits).2.kernel.value 0 = 7 ∧
    (1 ||| 2 : Nat) = 3 ∧
    (task_utils.notify refAdapter (afterSetBits consumedState ⟨0⟩ 1) ⟨0⟩ 2
      action.SetNoOverwrite).1 = false ∧
    (task_utils.notify refAdapter (afterSetBits consumedState ⟨0⟩ 1) ⟨0⟩ 2
      action.SetNoOverwrite).2.kernel.value 0 = 7 := by
  refine ⟨by decide, by decide, by decide, by decide, by decide, by decide, by decide,
    by decide⟩

/-! ## `basic_stack` -/

namespace basic_stack

/-- In every reachable stack the top index lies between -1 and `m_iLast - 1`. -/
theorem Reachable.bounds {s : basic_stack} (hr : Reachable s) :
    -1 ≤ s.m_iCurrent ∧ s.m_iCurrent ≤ s.m_iLast - 1 := by
  induction hr with
  | created nSize addr offset h0 h1 =>
    simp only [create_offset, internal_create]
    omega
  | pushed s x _ ih =>
    unfold push
    split
    · simp only; omega
    · exact ih
  | popped s item _ ih =>
    unfold pop
    cases item with
    | none => exact ih
    | some v =>
      simp only [count]
      split
      · simp only; omega
      · exact ih
  | peeked s item _ ih =>
    unfold peek
    cases item with
    | none => exact ih
    | some v =>
      simp only
      split <;> exact ih

end basic_stack

/-- C9: on every stack reachable from a constructor by `push`, `pop` and `peek`, for every
item `x`: `push(x)` returns `ERR_UNKN` exactly when `is_full()` is true, and then leaves the
stack unchanged; when `is_full()` is false it returns `NO_ERROR`, `count()` grows by exactly
1 and `x` is the top item: it is stored at `m_iCurrent` and `peek` delivers it. -/
theorem push_fails_exactly_when_full (s : basic_stack) (hr : basic_stack.Reachable s)
    (x v : basic_type_t) :
    ((s.push x).1 = ErrorCode.ERR_UNKN ↔ s.is_full = true) ∧
    (s.is_full = true → s.push x = (ErrorCode.ERR_UNKN, s)) ∧
    (s.is_full = false →
      (s.push x).1 = ErrorCode.NO_ERROR ∧ (s.push x).2.count = s.count + 1 ∧
      (s.push x).2.m_ulAdrr (s.push x).2.m_iCurrent = x ∧
      (s.push x).2.peek (some v) = (ErrorCode.NO_ERROR, (s.push x).2, some x)) := by
  obtain ⟨hlo, hhi⟩ := hr.bounds
  by_cases hfull : s.m_iCurrent = s.m_iLast - 1
  · have hlt : ¬ s.m_iCurrent < s.m_iLast - 1 := by omega
    simp [basic_stack.push, basic_stack.is_full, hfull, hlt]
  · have hlt : s.m_iCurrent < s.m_iLast - 1 := by omega
    have hpos : s.m_iCurrent + 1 + 1 > 0 := by omega
    simp [basic_stack.push, basic_stack.is_full, basic_stack.peek, basic_stack.count, hfull,
      hlt, hpos]

/-- Witness of C9: pushing 7 onto the empty stack of size 4. -/
theorem push_fails_exactly_when_full_witness :
    basic_stack.stack4.is_full = false ∧
    (basic_stack.stack4.push 7).1 = ErrorCode.NO_ERROR ∧
    (basic_stack.stack4.push 7).2.count = basic_stack.stack4.count + 1 ∧
    (basic_stack.stack4.push 7).2.m_ulAdrr (basic_stack.stack4.push 7).2.m_iCurrent = 7 ∧
    (basic_stack.stack4.push 7).2.peek (some 0) =
      (ErrorCode.NO_ERROR, (basic_stack.stack4.push 7).2, some 7) :=
  ⟨by decide,
    (push_fails_exactly_when_full basic_stack.stack4
      (basic_stack.Reachable.created 4 (fun _ => 0) 0 (by decide) (by decide)) 7 0).2.2
      (by decide)⟩

/-- One more pop after `k` pops: the result of the last call comes last. -/
theorem popMany_succ (k : Nat) : ∀ t : basic_stack,
    basic_stack.popMany (k + 1) t =
      ((basic_stack.popMany k t).1 ++
          [(((basic_stack.popMany k t).2.pop (some 0)).1,
            ((basic_stack.popMany k t).2.pop (some 0)).2.2)],
        ((basic_stack.popMany k t).2.pop (some 0)).2.1) := by
  induction k with
  | zero => intro t; rfl
  | succ k ih =>
    intro t
    rw [basic_stack.popMany, ih]
    rfl

/-- Pushing the items `xs` onto a stack that has room for them and popping as many times
gives the items back, last pushed first, every pop with `NO_ERROR`, and leaves a stack with
the indices and items it had before. -/
theorem pushAll_popMany (xs : List basic_type_t) : ∀ s : basic_stack,
    -1 ≤ s.m_iCurrent → s.m_iCurrent + (xs.length : Int) < s.m_iLast →
    (basic_stack.popMany xs.length (s.pushAll xs)).1 =
        xs.reverse.map (fun y => (ErrorCode.NO_ERROR, some y)) ∧
      basic_stack.SameItems s (basic_stack.popMany xs.length (s.pushAll xs)).2 := by
  induction xs with
  | nil =>
    intro s _ _
    exact ⟨rfl, rfl, rfl, rfl, rfl, fun _ _ => rfl⟩
  | cons x rest ih =>
    intro s hlo hroom
    simp only [List.length_cons, Nat.cast_add, Nat.cast_one] at hroom
    have hlt : s.m_iCurrent < s.m_iLast - 1 := by omega
    have hpush : (s.push x).2 =
        { s with m_iCurrent := s.m_iCurrent + 1
                 m_ulAdrr := fun i => if i = s.m_iCurrent + 1 then x else s.m_ulAdrr i } := by
      simp [basic_stack.push, hlt]
    have pcur : (s.push x).2.m_iCurrent = s.m_iCurrent + 1 := by rw [hpush]
    have plast : (s.push x).2.m_iLast = s.m_iLast := by rw [hpush]
    have pfirst : (s.push x).2.m_iFirst = s.m_iFirst := by rw [hpush]
    have psize : (s.push x).2.m_ulSize = s.m_ulSize := by rw [hpush]
    have pbuf : ∀ i, (s.push x).2.m_ulAdrr i = if i = s.m_iCurrent + 1 then x else s.m_ulAdrr i := by
      intro i; rw [hpush]
    have key := ih (s.push x).2 (by rw [pcur]; omega) (by rw [pcur, plast]; omega)
    have hunf : basic_stack.popMany (x :: rest).length (s.pushAll (x :: rest)) =
        basic_stack.popMany (rest.length + 1) ((s.push x).2.pushAll rest) := rfl
    rw [hunf, popMany_succ]
    generalize basic_stack.popMany rest.length ((s.push x).2.pushAll rest) = r at key ⊢
    obtain ⟨hl, hcur, hlast, hfirst, hsize, hbuf⟩ := key
    have htop : r.2.m_ulAdrr r.2.m_iCurrent = x := by
      rw [hcur, hbuf _ (le_refl _), pbuf, pcur]
      simp
    have hcount : r.2.count > 0 := by
      simp only [basic_stack.count, hcur, pcur]; omega
    have hpop : r.2.pop (some 0) =
        (ErrorCode.NO_ERROR, { r.2 with m_iCurrent := r.2.m_iCurrent - 1 }, some x) := by
      simp [basic_stack.pop, hcount, htop]
    rw [hpop]
    refine ⟨?_, ?_, ?_, ?_, ?_, ?_⟩
    · simp [hl]
    · show r.2.m_iCurrent - 1 = s.m_iCurrent
      rw [hcur, pcur]; omega
    · exact hlast.trans plast
    · exact hfirst.trans pfirst
    · exact hsize.trans psize
    · intro i hi
      show r.2.m_ulAdrr i = s.m_ulAdrr i
      have hne : i ≠ s.m_iCurrent + 1 := by omega
      rw [hbuf i (by rw [pcur]; omega), pbuf, if_neg hne]

/-- C10: on a reachable stack that is not full, `push(x)` followed by `pop(&out)` returns
`NO_ERROR` with `out = x` and gives back a stack with the count, the indices, the items and
the answers of `peek` it had before the push; and pushing `xs` onto a stack with room for
them, then popping as many times, yields the items in reverse order of pushing. -/
theorem push_pop_roundtrip (s : basic_stack) (hr : basic_stack.Reachable s)
    (hnotfull : s.is_full = false) (x out : basic_type_t) :
    ((s.push x).2.pop (some out)).1 = ErrorCode.NO_ERROR ∧
    ((s.push x).2.pop (some out)).2.2 = some x ∧
    ((s.push x).2.pop (some out)).2.1.count = s.count ∧
    basic_stack.SameItems s ((s.push x).2.pop (some out)).2.1 ∧
    (∀ c, (((s.push x).2.pop (some out)).2.1.peek c).1 = (s.peek c).1 ∧
      (((s.push x).2.pop (some out)).2.1.peek c).2.2 = (s.peek c).2.2) ∧
    (∀ xs : List basic_type_t, s.m_iCurrent + (xs.length : Int) < s.m_iLast →
      (basic_stack.popMany xs.length (s.pushAll xs)).1 =
          xs.reverse.map (fun y => (ErrorCode.NO_ERROR, some y)) ∧
        basic_stack.SameItems s (basic_stack.popMany xs.length (s.pushAll xs)).2) := by
  obtain ⟨hlo, hhi⟩ := hr.bounds
  have hne : s.m_iCurrent ≠ s.m_iLast - 1 := by
    simpa [basic_stack.is_full] using hnotfull
  have hlt : s.m_iCurrent < s.m_iLast - 1 := by omega
  have hpos : s.m_iCurrent + 1 + 1 > 0 := by omega
  refine ⟨?_, ?_, ?_, ?_, ?_, fun xs hroom => pushAll_popMany xs s hlo hroom⟩
  · simp [basic_stack.push, basic_stack.pop, basic_stack.count, hlt, hpos]
  · simp [basic_stack.push, basic_stack.pop, basic_stack.count, hlt, hpos]
  · simp [basic_stack.push, basic_stack.pop, basic_stack.count, hlt, hpos]
  · simp only [basic_stack.SameItems, basic_stack.push, basic_stack.pop, basic_stack.count, hlt,
      hpos, if_true]
    refine ⟨by omega, trivial, trivial, trivial, ?_⟩
    intro i hi
    have : i ≠ s.m_iCurrent + 1 := by omega
    simp [this]
  · intro c
    cases c with
    | none => exact ⟨rfl, rfl⟩
    | some v =>
      have hself : ¬ s.m_iCurrent = s.m_iCurrent + 1 := by omega
      by_cases hc : s.m_iCurrent + 1 > 0 <;>
        simp [basic_stack.push, basic_stack.pop, basic_stack.peek, basic_stack.count, hlt,
          hpos, hc, hself]

/-- Witness of C10: 7 pushed onto the empty stack of size 4 and popped again, and the
items 1, 2, 3 pushed and popped. -/
theorem push_pop_roundtrip_witness :
    basic_stack.stack4.is_full = false ∧
    ((basic_stack.stack4.push 7).2.pop (some 0)).1 = ErrorCode.NO_ERROR ∧
    ((basic_stack.stack4.push 7).2.pop (some 0)).2.2 = some 7 ∧
    (basic_stack.popMany 3 (basic_stack.stack4.pushAll [1, 2, 3])).1 =
      [(ErrorCode.NO_ERROR, some 3), (ErrorCode.NO_ERROR, some 2), (ErrorCode.NO_ERROR, some 1)] := by
  have h := push_pop_roundtrip basic_stack.stack4
    (basic_stack.Reachable.created 4 (fun _ => 0) 0 (by decide) (by decide)) (by decide) 7 0
  exact ⟨by decide, h.1, h.2.1, (h.2.2.2.2.2 [1, 2, 3] (by decide)).1⟩

/-- C11: on every stack, `pop(NULL)` and `peek(NULL)` return `ERR_NULL`, and on an empty
stack (`is_empty()` true) `pop(&out)` and `peek(&out)` return `ERR_UNKN`; in these cases the
stack and the cell `out` are as before.  On a reachable stack that is not empty,
`peek(&out)` returns `NO_ERROR`, writes the item that `pop(&out)` writes, namely the one at
`m_iCurrent`, and leaves the stack as it is, where `pop` returns `NO_ERROR` too. -/
theorem pop_peek_null_and_empty (s : basic_stack) (v : basic_type_t) :
    s.pop none = (ErrorCode.ERR_NULL, s, none) ∧
    s.peek none = (ErrorCode.ERR_NULL, s, none) ∧
    (s.is_empty = true →
      s.pop (some v) = (ErrorCode.ERR_UNKN, s, some v) ∧
      s.peek (some v) = (ErrorCode.ERR_UNKN, s, some v)) ∧
    (basic_stack.Reachable s → s.is_empty = false →
      s.peek (some v) = (ErrorCode.NO_ERROR, s, (s.pop (some v)).2.2) ∧
      (s.pop (some v)).1 = ErrorCode.NO_ERROR ∧
      (s.peek (some v)).2.2 = some (s.m_ulAdrr s.m_iCurrent)) := by
  refine ⟨rfl, rfl, ?_, ?_⟩
  · intro hempty
    have hcur : s.m_iCurrent = -1 := by simpa [basic_stack.is_empty] using hempty
    simp [basic_stack.pop, basic_stack.peek, basic_stack.count, hcur]
  · intro hr hne
    obtain ⟨hlo, _⟩ := hr.bounds
    have hcur : s.m_iCurrent ≠ -1 := by simpa [basic_stack.is_empty] using hne
    have hpos : s.m_iCurrent + 1 > 0 := by omega
    simp [basic_stack.pop, basic_stack.peek, basic_stack.count, hpos]

/-- Witness of C11: the empty stack of size 4, and the same stack holding the item 7. -/
theorem pop_peek_null_and_empty_witness :
    (basic_stack.stack4.is_empty = true ∧
      basic_stack.stack4.pop (some 5) = (ErrorCode.ERR_UNKN, basic_stack.stack4, some 5) ∧
      basic_stack.stack4.peek (some 5) = (ErrorCode.ERR_UNKN, basic_stack.stack4, some 5)) ∧
    ((basic_stack.stack4.push 7).2.is_empty = false ∧
      (basic_stack.stack4.push 7).2.peek (some 5) =
        (ErrorCode.NO_ERROR, (basic_stack.stack4.push 7).2,
          ((basic_stack.stack4.push 7).2.pop (some 5)).2.2) ∧
      ((basic_stack.stack4.push 7).2.peek (some 5)).2.2 = some 7) := by
  have h0 := (pop_peek_null_and_empty basic_stack.stack4 5).2.2.1 (by decide)
  have h1 := (pop_peek_null_and_empty (basic_stack.stack4.push 7).2 5).2.2.2
    (basic_stack.Reachable.pushed _ 7
      (basic_stack.Reachable.created 4 (fun _ => 0) 0 (by decide) (by decide)))
    (by decide)
  exact ⟨⟨by decide, h0.1, h0.2⟩, by decide, h1.1, h1.2.2⟩

/-- With enough fuel, the number of further successful pushes is the distance of the top
index from `m_iLast - 1`. -/
theorem pushesLeft_eq (fuel : Nat) : ∀ s : basic_stack,
    s.m_iCurrent ≤ s.m_iLast - 1 → (s.m_iLast - 1 - s.m_iCurrent).toNat ≤ fuel →
    (basic_stack.pushesLeft fuel s : Int) = s.m_iLast - 1 - s.m_iCurrent := by
  induction fuel with
  | zero =>
    intro s hle hfuel
    simp only [basic_stack.pushesLeft]
    omega
  | succ fuel ih =>
    intro s hle hfuel
    by_cases hlt : s.m_iCurrent < s.m_iLast - 1
    · have hpush : s.push 0 =
          (ErrorCode.NO_ERROR,
            { s with m_iCurrent := s.m_iCurrent + 1
                     m_ulAdrr := fun i => if i = s.m_iCurrent + 1 then 0 else s.m_ulAdrr i }) := by
        simp [basic_stack.push, hlt]
      have h := ih (s.push 0).2 (by rw [hpush]; simp only; omega) (by rw [hpush]; simp only; omega)
      rw [hpush] at h
      simp only at h
      simp only [basic_stack.pushesLeft, hpush, if_true, Nat.cast_add, Nat.cast_one, h]
      omega
    · have hpush : (s.push 0).1 = ErrorCode.ERR_UNKN := by
        simp [basic_stack.push, hlt]
      simp only [basic_stack.pushesLeft, hpush]
      simp
      omega

/-- In every reachable stack `m_ulSize` is `m_iLast` less the offset `m_iFirst + 1`, and the
offset is not negative. -/
theorem reachable_layout {s : basic_stack} (hr : basic_stack.Reachable s) :
    s.m_ulSize = s.m_iLast - (s.m_iFirst + 1) ∧ 0 ≤ s.m_iFirst + 1 := by
  induction hr with
  | created nSize addr offset h0 h1 =>
    simp only [basic_stack.create_offset, basic_stack.internal_create]
    refine ⟨?_, by omega⟩
    rw [Int.sub_add_cancel]
  | pushed s x _ ih =>
    unfold basic_stack.push
    split
    · exact ih
    · exact ih
  | popped s item _ ih =>
    unfold basic_stack.pop
    cases item with
    | none => exact ih
    | some v =>
      simp only
      split
      · exact ih
      · exact ih
  | peeked s item _ ih =>
    unfold basic_stack.peek
    cases item with
    | none => exact ih
    | some v =>
      simp only
      split <;> exact ih

/-- On every reachable stack `get_left()` is the number of further successful pushes less
the offset the stack was built with; the two agree exactly for offset 0. -/
theorem get_left_short_by_offset (s : basic_stack) (hr : basic_stack.Reachable s) (fuel : Nat)
    (hfuel : (s.m_iLast - 1 - s.m_iCurrent).toNat ≤ fuel) :
    s.get_left = (basic_stack.pushesLeft fuel s : Int) - (s.m_iFirst + 1) ∧
    (s.get_left = 0 ↔ s.m_iCurrent = s.m_iLast - 1 - (s.m_iFirst + 1)) ∧
    (s.is_full = true ↔ s.m_iCurrent = s.m_iLast - 1) := by
  obtain ⟨_, hhi⟩ := hr.bounds
  obtain ⟨hsize, _⟩ := reachable_layout hr
  rw [pushesLeft_eq fuel s hhi hfuel]
  simp only [basic_stack.get_left, basic_stack.is_full, hsize, decide_eq_true_eq]
  refine ⟨by omega, ?_, trivial⟩
  constructor <;> intro h <;> omega

/-- A stack newly built with size `n` and offset `o ≤ n` accepts exactly `n - o` pushes. -/
theorem pushesLeft_created (n : basic_type_t) (addr : Int → basic_type_t) (o : Int) (fuel : Nat)
    (hle : o ≤ n) (hfuel : (n - o).toNat ≤ fuel) :
    (basic_stack.pushesLeft fuel (basic_stack.create_offset n addr o) : Int) = n - o := by
  have h := pushesLeft_eq fuel (basic_stack.create_offset n addr o)
    (by simp only [basic_stack.create_offset, basic_stack.internal_create]; omega)
    (by simp only [basic_stack.create_offset, basic_stack.internal_create]
        have : (n : Int) - 1 - (o - 1) = n - o := by ring
        rw [this]; exact hfuel)
  rw [h]
  simp only [basic_stack.create_offset, basic_stack.internal_create]
  ring

/-- C12 (evaluation of the code): on `basic_stack(4, addr, 2)`, a stack of size 4 built with
offset 2, `get_left()` is 0 although `is_full()` is false and two more pushes succeed; after
these two pushes the stack is full and `get_left()` is -2.  For every size `n` and offset `o`
the new stack has `get_left() = n - 2 * o` (while `n - o` pushes succeed, see
`pushesLeft_created`).  The part `get_left() + count() = size()` of the claim holds on every
stack. -/
theorem get_left_miscounts_with_offset :
    basic_stack.Reachable basic_stack.stackOffset2 ∧
    basic_stack.stackOffset2.get_left = 0 ∧
    basic_stack.stackOffset2.is_full = false ∧
    basic_stack.pushesLeft 10 basic_stack.stackOffset2 = 2 ∧
    (basic_stack.stackOffset2.push 8).1 = ErrorCode.NO_ERROR ∧
    ((basic_stack.stackOffset2.push 8).2.push 9).1 = ErrorCode.NO_ERROR ∧
    ((basic_stack.stackOffset2.push 8).2.push 9).2.is_full = true ∧
    ((basic_stack.stackOffset2.push 8).2.push 9).2.get_left = -2 ∧
    (∀ (n : basic_type_t) (addr : Int → basic_type_t) (o : Int),
      (basic_stack.create_offset n addr o).get_left = n - 2 * o) ∧
    (∀ s : basic_stack, s.get_left + s.count = s.size) := by
  refine ⟨basic_stack.Reachable.created 4 (fun _ => 0) 2 (by decide) (by decide),
    by decide, by decide, by decide, by decide, by decide, by decide, by decide, ?_, ?_⟩
  · intro n addr o
    simp only [basic_stack.get_left, basic_stack.create_offset, basic_stack.internal_create]
    show (n : Int) - o - (o - 1 + 1) = n - 2 * o
    ring
  · intro s
    simp only [basic_stack.get_left, basic_stack.count, basic_stack.size]
    ring

/-! ## Waitable task: the running lock is given back -/

/-- A lock that is not held is the free lock. -/
theorem LockType_t_free (m : LockType_t) (h : m.held = false) : m = ⟨false⟩ := by
  cases m
  simp_all

/-- C14: `signal()` on a task `t` whose running lock is free returns; its effects are, in
this order, the acquire of `t`'s running lock, one release of `t`'s private semaphore, one
call of `t`'s `on_signal()`, the release of `t`'s running lock; afterwards `t`'s running
lock is as before, its semaphore is released, and every other task, `t`'s child included,
as well as the wait set and the external lock, is unchanged.  `wait()` too leaves the
running lock of `t` as before and the other tasks unchanged, and `signal_all()` on an
acyclic chain leaves the running lock of every task as before.  A call that finds the
running lock held does not get past its acquire. -/
theorem signal_restores_running_lock (w : World) (t timeOut fuel : Nat) (ts : List Nat)
    (hfree : (w.tasks t).m_runningMutex.held = false) :
    (∃ w', signal w t = some w' ∧
      w'.trace = w.trace ++ [Event.running_lock t, Event.sem_unlock t, Event.on_signal t,
        Event.running_unlock t] ∧
      (w'.tasks t).m_runningMutex = (w.tasks t).m_runningMutex ∧
      (w'.tasks t).m_waitSem.available = true ∧
      (w'.tasks t).m_pChild = (w.tasks t).m_pChild ∧
      (∀ i, i ≠ t → w'.tasks i = w.tasks i) ∧ w'.cv = w.cv ∧ w'.cvl = w.cvl) ∧
    semReleases [Event.running_lock t, Event.sem_unlock t, Event.on_signal t,
      Event.running_unlock t] = [t] ∧
    hookCalls [Event.running_lock t, Event.sem_unlock t, Event.on_signal t,
      Event.running_unlock t] = [t] ∧
    (∃ r w', wait w t timeOut = some (r, w') ∧
      (w'.tasks t).m_runningMutex = (w.tasks t).m_runningMutex ∧
      (∀ i, i ≠ t → w'.tasks i = w.tasks i)) ∧
    (IsChain w (t :: ts) → (t :: ts).Nodup →
      (∀ i ∈ t :: ts, (w.tasks i).m_runningMutex.held = false) → ts.length < fuel →
      ∃ w', signal_all fuel w t = some w' ∧
        ∀ i, (w'.tasks i).m_runningMutex = (w.tasks i).m_runningMutex) ∧
    (∀ v : World, (v.tasks t).m_runningMutex.held = true →
      signal v t = none ∧ signal_all (fuel + 1) v t = none ∧ wait v t timeOut = none) := by
  have hm := LockType_t_free _ hfree
  refine ⟨?_, rfl, rfl, ?_, ?_, ?_⟩
  · obtain ⟨w1, h1, htr, hcv, hcvl, htt, hoth⟩ := signal_head w t hfree
    obtain ⟨rtr, rcv, rcvl, rtt, roth⟩ := autolock_release_spec (on_signal (waitSem_unlock w1 t) t) t
    refine ⟨autolock_release (on_signal (waitSem_unlock w1 t) t) t, ?_, ?_, ?_, ?_, ?_, ?_, ?_, ?_⟩
    · simp only [signal, h1]
    · rw [rtr, htr]; simp
    · rw [rtt, hm]
    · rw [rtt, htt]
    · rw [rtt, htt]
    · intro i hi
      rw [roth i hi, hoth i hi]
    · rw [rcv, hcv]
    · rw [rcvl, hcvl]
  · simp only [wait, autolock_acquire, LockType_t.lock, hfree, Bool.false_eq_true, if_false]
    refine ⟨_, _, rfl, ?_, ?_⟩
    · simp [autolock_release, waitSem_lock_timed, add_list, cvl_unlock, World.setTask,
        World.log, LockType_t.unlock, hm]
    · intro i hi
      simp [autolock_release, waitSem_lock_timed, add_list, cvl_unlock, World.setTask,
        World.log, hi]
  · intro hchain hnd hall hfuel
    obtain ⟨w', h, _, _, _, hin, hout⟩ := signal_all_chain ts w t fuel hchain hnd hall hfuel
    refine ⟨w', h, ?_⟩
    intro i
    by_cases hi : i ∈ t :: ts
    · rw [hin i hi, LockType_t_free _ (hall i hi)]
    · rw [hout i hi]
  · intro v hheld
    simp [signal, signal_all, wait, autolock_acquire, LockType_t.lock, hheld]

/-- Witness of C14 on task 0 of `chainWorld`, the head of the chain of six tasks. -/
theorem signal_restores_running_lock_witness :
    (chainWorld.tasks 0).m_runningMutex.held = false ∧
    (∃ w', signal chainWorld 0 = some w' ∧
      w'.trace = chainWorld.trace ++ [Event.running_lock 0, Event.sem_unlock 0,
        Event.on_signal 0, Event.running_unlock 0] ∧
      (w'.tasks 0).m_runningMutex = (chainWorld.tasks 0).m_runningMutex ∧
      (w'.tasks 0).m_waitSem.available = true ∧
      (w'.tasks 0).m_pChild = (chainWorld.tasks 0).m_pChild ∧
      (∀ i, i ≠ 0 → w'.tasks i = chainWorld.tasks i) ∧ w'.cv = chainWorld.cv ∧
      w'.cvl = chainWorld.cvl) ∧
    (∃ w', signal_all 6 chainWorld 0 = some w' ∧
      ∀ i, (w'.tasks i).m_runningMutex = (chainWorld.tasks i).m_runningMutex) :=
  ⟨rfl, (signal_restores_running_lock chainWorld 0 3 6 [1, 2, 3, 4, 5] rfl).1,
    (signal_restores_running_lock chainWorld 0 3 6 [1, 2, 3, 4, 5] rfl).2.2.2.2.1
      (by simp [IsChain, chainWorld]) (by decide) (fun _ _ => rfl) (by decide)⟩

/-! ## `basic_allocator_buffer` -/

/-- Whatever the base class does, `calloc` never writes to the backing buffer: when it
returns, the bytes of `m_buffer` are the ones from before the call. -/
theorem calloc_keeps_bytes {B : Type} (I : allocator_interface B) (a : basic_allocator_buffer B)
    (n size buf xTime : Nat) :
    (basic_allocator_buffer.calloc I a n size buf xTime).map (fun r => r.2.2.m_buffer) =
      (basic_allocator_buffer.calloc I a n size buf xTime).map (fun _ => a.m_buffer) := by
  unfold basic_allocator_buffer.calloc
  simp only
  split
  · split
    · rfl
    · split <;> rfl
  · rfl

/-- The two ways in which `calloc` returns: with 0, `*buf` and the allocator as before; or
with `size`, `*buf` at the former top, the top moved on by `size * n` (as a `size_t`) within
the buffer, and the same amount added to the allocated count. -/
theorem calloc_cases {B : Type} (I : allocator_interface B) (a : basic_allocator_buffer B)
    (n size buf xTime : Nat) :
    basic_allocator_buffer.calloc I a n size buf xTime = none ∨
    basic_allocator_buffer.calloc I a n size buf xTime = some (0, buf, a) ∨
    (basic_allocator_buffer.calloc I a n size buf xTime =
        some (size, a.m_bufferTop,
          { a with m_bufferTop := (a.m_bufferTop + (size * n) % SIZE_T_RANGE) % SIZE_T_RANGE
                   base := I.add_allocatedsize a.base ((size * n) % SIZE_T_RANGE) }) ∧
      (a.m_bufferTop + (size * n) % SIZE_T_RANGE) % SIZE_T_RANGE ≤ a.m_BufferSize) := by
  unfold basic_allocator_buffer.calloc
  simp only
  split
  · split
    · exact Or.inr (Or.inl rfl)
    · split
      · rename_i h
        exact Or.inr (Or.inr ⟨rfl, h⟩)
      · exact Or.inl rfl
  · exact Or.inr (Or.inl rfl)

/-- C13 (evaluation of the code): on an allocator over 8 bytes that all hold 255,
`calloc(2, 2, &buf, 0)` returns 2 (the value of `size`), sets `*buf` to the former top 0 and
moves the top and the allocated count on by 4, but the four bytes of the region still hold
255: no byte is set to 0, and for every allocator a returning `calloc` leaves all bytes of
the backing buffer as they were.  Further, `calloc(3, 0, &buf, 0)` returns 0 and yet
replaces `*buf` (99 before the call) by the top; and `calloc(2 ^ 31, 2, &buf, 0)`, whose
product wraps to 0, returns 2 without moving the top. -/
theorem calloc_does_not_zero :
    (basic_allocator_buffer.calloc bumpInterface allocator8 2 2 99 0).map
        (fun r => (r.1, r.2.1, r.2.2.m_bufferTop, r.2.2.base,
          [r.2.2.m_buffer 0, r.2.2.m_buffer 1, r.2.2.m_buffer 2, r.2.2.m_buffer 3])) =
      some (2, 0, 4, (8, 4), [255, 255, 255, 255]) ∧
    (∀ (a : basic_allocator_buffer (Nat × Nat)) (n size buf xTime : Nat),
      (basic_allocator_buffer.calloc bumpInterface a n size buf xTime).map
          (fun r => r.2.2.m_buffer) =
        (basic_allocator_buffer.calloc bumpInterface a n size buf xTime).map
          (fun _ => a.m_buffer)) ∧
    (basic_allocator_buffer.calloc bumpInterface allocator8 3 0 99 0).map
        (fun r => (r.1, r.2.1, r.2.2.m_bufferTop, r.2.2.base)) = some (0, 0, 0, (8, 0)) ∧
    (basic_allocator_buffer.calloc bumpInterface allocator8 (2 ^ 31) 2 99 0).map
        (fun r => (r.1, r.2.1, r.2.2.m_bufferTop, r.2.2.base)) = some (2, 0, 0, (8, 0)) := by
  refine ⟨by decide, fun a n size buf xTime => calloc_keeps_bytes bumpInterface a n size buf xTime,
    by decide, by decide⟩

end MiniThread
